import Mathlib

/-!
# Verification of the FPC utilisation collector (`src/lab.py`)

This file gives a shallow embedding, in Lean 4, of the pure parsing and
session-bookkeeping logic of the FPC utilisation baseline collector, and
proves or refutes the frozen specification claims about it.

Conventions used throughout:

* Python strings are embedded as Lean `String`s; character-level scanning is
  done on `String.data : List Char`.  All inputs of interest are ASCII, so
  `Char.toUpper`/`Char.isDigit` coincide with Python's `str.upper`/`\d`.
* Python floats are embedded as exact rationals (`Rat`).  Every claim under
  study is about *which* quotient or product is computed, never about IEEE
  rounding, so the rational model is faithful at the granularity of the
  claims.
* Regular-expression uses in the source are embedded as hand-written
  scanners whose semantics follow the concrete pattern (greedy matching with
  the bounded backtracking the respective pattern admits).  Each scanner's
  doc comment names the pattern it embeds.
-/

namespace FpcLab

/-! ## Character and list-of-characters utilities -/

/-- Python `\s` / `str.strip` whitespace set (ASCII). -/
def isPyWs (c : Char) : Bool :=
  c == ' ' || c == '\t' || c == '\n' || c == '\r' || c == '\x0b' || c == '\x0c'

/-- Python `\w` word characters (ASCII): letters, digits, underscore. -/
def isWordChar (c : Char) : Bool :=
  c.isAlpha || c.isDigit || c == '_'

/-- `startsWithL hay pat`: `pat` is a prefix of `hay`. -/
def startsWithL : List Char → List Char → Bool
  | _, [] => true
  | [], _ :: _ => false
  | c :: cs, p :: ps => c == p && startsWithL cs ps

/-- `containsSub hay pat`: `pat` occurs as a contiguous substring of `hay`
(Python's `pat in hay`). -/
def containsSub (hay pat : List Char) : Bool :=
  match hay with
  | [] => startsWithL [] pat
  | _ :: rest => startsWithL hay pat || containsSub rest pat

/-- Python `pat in s` on strings. -/
def strContains (s pat : String) : Bool := containsSub s.data pat.data

/-- Python `str.upper` (ASCII). -/
def upperStr (s : String) : String := String.mk (s.data.map Char.toUpper)

/-- Python `str.lower` (ASCII). -/
def lowerStr (s : String) : String := String.mk (s.data.map Char.toLower)

/-- Python `str.strip()` (both ends, Python whitespace set). -/
def pyStrip (s : String) : String :=
  String.mk (((s.data.dropWhile isPyWs).reverse.dropWhile isPyWs).reverse)

/-- Value of a digit string (most significant first). -/
def digitsToNat (ds : List Char) : Nat :=
  ds.foldl (fun a c => a * 10 + (c.toNat - 48)) 0

/-- Exact value of the decimal literal `intDs . fracDs` as a rational. -/
def decToRat (intDs fracDs : List Char) : Rat :=
  (digitsToNat intDs : Rat) + (digitsToNat fracDs : Rat) / ((10 : Rat) ^ fracDs.length)

/-! ## `_to_mb` (src/lab.py lines 927-941)

`_to_mb` normalises a storage quantity string to megabytes: a plain decimal
number is returned unchanged, a decimal number immediately followed by a
unit letter `K/k/M/m/G/g/T/t` is scaled by the factor table
`{K: 1/1024, M: 1, G: 1024, T: 1024*1024}`, anything else yields `0.0`. -/

/-- Full match of `^\d+(?:\.\d+)?$` together with its exact decimal value. -/
def plainNumber? (cs : List Char) : Option Rat :=
  let ds := cs.takeWhile Char.isDigit
  let rest := cs.dropWhile Char.isDigit
  if ds.isEmpty then none
  else
    match rest with
    | [] => some (decToRat ds [])
    | c :: r2 =>
      if c == '.' then
        let fs := r2.takeWhile Char.isDigit
        let r3 := r2.dropWhile Char.isDigit
        if fs.isEmpty || !r3.isEmpty then none else some (decToRat ds fs)
      else none

/-- The unit-letter class `[KkMmGgTt]` of the `_to_mb` scaling pattern. -/
def unitChars : List Char := ['K', 'k', 'M', 'm', 'G', 'g', 'T', 't']

/-- Anchored prefix match of `^(\d+(?:\.\d+)?)([KkMmGgTt])` (trailing input
after the unit letter is permitted, exactly as in the source pattern, which
has no `$`).  Returns the numeric value and the unit letter. -/
def numUnit? (cs : List Char) : Option (Rat × Char) :=
  let ds := cs.takeWhile Char.isDigit
  let rest := cs.dropWhile Char.isDigit
  if ds.isEmpty then none
  else
    match rest with
    | [] => none
    | c :: r2 =>
      if c == '.' then
        let fs := r2.takeWhile Char.isDigit
        let r3 := r2.dropWhile Char.isDigit
        if fs.isEmpty then none
        else
          match r3 with
          | [] => none
          | u :: _ => if u ∈ unitChars then some (decToRat ds fs, u) else none
      else if c ∈ unitChars then some (decToRat ds [], c) else none

/-- The factor table of `_to_mb`: `{K: 1/1024, M: 1, G: 1024, T: 1024*1024}`
(unit letter upper-cased first). -/
def unitFactorMB (u : Char) : Rat :=
  if u.toUpper == 'K' then 1 / 1024
  else if u.toUpper == 'M' then 1
  else if u.toUpper == 'G' then 1024
  else 1024 * 1024

/-- Embedding of `_to_mb` (src/lab.py lines 927-941). -/
def _to_mb (valStr : String) : Rat :=
  let s := pyStrip valStr
  if s.data.isEmpty then 0
  else
    match plainNumber? s.data with
    | some q => q
    | none =>
      match numUnit? s.data with
      | some (q, u) => q * unitFactorMB u
      | none => 0

/-! ### Scanner lemmas -/

theorem dropWhile_eq_self_of_all {p : Char → Bool} {cs : List Char}
    (h : ∀ c ∈ cs, p c = false) : cs.dropWhile p = cs := by
  cases cs with
  | nil => rfl
  | cons c t => simp [List.dropWhile_cons, h c (by simp)]

theorem takeWhile_eq_self_of_all {p : Char → Bool} {cs : List Char}
    (h : ∀ c ∈ cs, p c = true) : cs.takeWhile p = cs := by
  induction cs with
  | nil => rfl
  | cons c t ih =>
    simp [List.takeWhile_cons, h c (by simp), ih (fun x hx => h x (by simp [hx]))]

theorem dropWhile_eq_nil_of_all {p : Char → Bool} {cs : List Char}
    (h : ∀ c ∈ cs, p c = true) : cs.dropWhile p = [] := by
  induction cs with
  | nil => rfl
  | cons c t ih =>
    simp [List.dropWhile_cons, h c (by simp), ih (fun x hx => h x (by simp [hx]))]

theorem takeWhile_app {p : Char → Bool} {l1 l2 : List Char} {x : Char}
    (h1 : ∀ c ∈ l1, p c = true) (hx : p x = false) :
    (l1 ++ x :: l2).takeWhile p = l1 := by
  induction l1 with
  | nil => simp [List.takeWhile_cons, hx]
  | cons c t ih =>
    simp [List.takeWhile_cons, h1 c (by simp), ih (fun y hy => h1 y (by simp [hy]))]

theorem dropWhile_app {p : Char → Bool} {l1 l2 : List Char} {x : Char}
    (h1 : ∀ c ∈ l1, p c = true) (hx : p x = false) :
    (l1 ++ x :: l2).dropWhile p = x :: l2 := by
  induction l1 with
  | nil => simp [List.dropWhile_cons, hx]
  | cons c t ih =>
    simp [List.dropWhile_cons, h1 c (by simp), ih (fun y hy => h1 y (by simp [hy]))]

theorem pyStrip_eq_of_no_ws {s : String} (h : ∀ c ∈ s.data, isPyWs c = false) :
    pyStrip s = s := by
  cases s with
  | mk cs =>
    unfold pyStrip
    rw [show (String.mk cs).data = cs from rfl] at h ⊢
    rw [dropWhile_eq_self_of_all h,
      dropWhile_eq_self_of_all (fun c hc => h c (List.mem_reverse.mp hc)),
      List.reverse_reverse]

/-! ### Claim C10: `_to_mb` normalisation -/

/-- The decimal-literal string `intDs . fracDs` (without fraction when
`fracDs` is empty). -/
def numStr (intDs fracDs : List Char) : String :=
  String.mk (intDs ++ (if fracDs.isEmpty then [] else '.' :: fracDs))

/-- `numStr` followed by a unit letter. -/
def numStrU (intDs fracDs : List Char) (u : Char) : String :=
  String.mk ((numStr intDs fracDs).data ++ [u])

theorem plainNumber_int {ds : List Char} (hne : ds ≠ [])
    (hd : ∀ c ∈ ds, c.isDigit = true) :
    plainNumber? ds = some (decToRat ds []) := by
  have hempty : ds.isEmpty = false := by
    cases ds with
    | nil => exact absurd rfl hne
    | cons c t => rfl
  unfold plainNumber?
  rw [takeWhile_eq_self_of_all hd, dropWhile_eq_nil_of_all hd]
  simp [hempty]

theorem plainNumber_frac {ds fs : List Char} (hne : ds ≠ []) (hfne : fs ≠ [])
    (hd : ∀ c ∈ ds, c.isDigit = true) (hf : ∀ c ∈ fs, c.isDigit = true) :
    plainNumber? (ds ++ '.' :: fs) = some (decToRat ds fs) := by
  have hempty : ds.isEmpty = false := by
    cases ds with
    | nil => exact absurd rfl hne
    | cons c t => rfl
  have hfempty : fs.isEmpty = false := by
    cases fs with
    | nil => exact absurd rfl hfne
    | cons c t => rfl
  unfold plainNumber?
  rw [takeWhile_app hd (by decide), dropWhile_app hd (by decide)]
  simp only [hempty, Bool.false_eq_true, if_false]
  rw [takeWhile_eq_self_of_all hf, dropWhile_eq_nil_of_all hf]
  simp [hfempty]

theorem numUnit_int {ds tail : List Char} {u : Char} (hne : ds ≠ [])
    (hd : ∀ c ∈ ds, c.isDigit = true) (hud : u.isDigit = false)
    (hunotdot : (u == '.') = false) (hu : u ∈ unitChars) :
    numUnit? (ds ++ u :: tail) = some (decToRat ds [], u) := by
  have hempty : ds.isEmpty = false := by
    cases ds with
    | nil => exact absurd rfl hne
    | cons c t => rfl
  unfold numUnit?
  rw [takeWhile_app hd hud, dropWhile_app hd hud]
  simp [hempty, hunotdot, hu]

theorem numUnit_frac {ds fs tail : List Char} {u : Char} (hne : ds ≠ []) (hfne : fs ≠ [])
    (hd : ∀ c ∈ ds, c.isDigit = true) (hf : ∀ c ∈ fs, c.isDigit = true)
    (hud : u.isDigit = false) (hu : u ∈ unitChars) :
    numUnit? (ds ++ '.' :: (fs ++ u :: tail)) = some (decToRat ds fs, u) := by
  have hempty : ds.isEmpty = false := by
    cases ds with
    | nil => exact absurd rfl hne
    | cons c t => rfl
  have hfempty : fs.isEmpty = false := by
    cases fs with
    | nil => exact absurd rfl hfne
    | cons c t => rfl
  unfold numUnit?
  rw [takeWhile_app hd (by decide), dropWhile_app hd (by decide)]
  simp only [hempty, Bool.false_eq_true, if_false]
  rw [takeWhile_app hf hud, dropWhile_app hf hud]
  simp [hfempty, hu]

theorem plainNumber_none_unit {ds tail : List Char} {u : Char}
    (hd : ∀ c ∈ ds, c.isDigit = true) (hud : u.isDigit = false)
    (hunotdot : (u == '.') = false) :
    plainNumber? (ds ++ u :: tail) = none := by
  unfold plainNumber?
  rw [takeWhile_app hd hud, dropWhile_app hd hud]
  by_cases hempty : ds.isEmpty <;> simp [hempty, hunotdot]

theorem plainNumber_none_fracUnit {ds fs tail : List Char} {u : Char}
    (hd : ∀ c ∈ ds, c.isDigit = true) (hf : ∀ c ∈ fs, c.isDigit = true)
    (hud : u.isDigit = false) :
    plainNumber? (ds ++ '.' :: (fs ++ u :: tail)) = none := by
  unfold plainNumber?
  rw [takeWhile_app hd (by decide), dropWhile_app hd (by decide)]
  by_cases hempty : ds.isEmpty
  · simp [hempty]
  · simp only [hempty, Bool.false_eq_true, if_false]
    rw [takeWhile_app hf hud, dropWhile_app hf hud]
    simp

theorem isPyWs_false_of_isDigit {c : Char} (h : c.isDigit = true) : isPyWs c = false := by
  by_contra hne
  have hws : isPyWs c = true := by simpa using hne
  unfold isPyWs at hws
  simp only [Bool.or_eq_true, beq_iff_eq] at hws
  rcases hws with ((((h1 | h1) | h1) | h1) | h1) | h1 <;> subst h1 <;>
    exact absurd h (by decide)

/-- `numStr` with an empty fraction is just the digit string. -/
theorem numStr_nil (ds : List Char) : numStr ds [] = String.mk ds := by
  simp [numStr]

theorem numStr_cons (ds ft : List Char) (f0 : Char) :
    numStr ds (f0 :: ft) = String.mk (ds ++ '.' :: f0 :: ft) := rfl

theorem numStrU_nil (ds : List Char) (u : Char) :
    numStrU ds [] u = String.mk (ds ++ u :: []) := by
  simp [numStrU, numStr]

theorem numStrU_cons (ds ft : List Char) (f0 u : Char) :
    numStrU ds (f0 :: ft) u = String.mk (ds ++ '.' :: ((f0 :: ft) ++ u :: [])) := by
  show String.mk ((ds ++ '.' :: f0 :: ft) ++ [u]) = _
  rw [List.append_assoc]
  rfl

/-- Evaluation of `_to_mb` on a non-empty whitespace-free character list. -/
theorem to_mb_eval {cs : List Char} (h : ∀ c ∈ cs, isPyWs c = false) (hne : cs ≠ []) :
    _to_mb (String.mk cs) =
      (match plainNumber? cs with
       | some q => q
       | none =>
         match numUnit? cs with
         | some (q, u) => q * unitFactorMB u
         | none => 0) := by
  have hempty : (String.mk cs).data.isEmpty = false := by
    cases cs with
    | nil => exact absurd rfl hne
    | cons a t => rfl
  unfold _to_mb
  rw [pyStrip_eq_of_no_ws h]
  simp [hempty]

/-- A plain decimal-number string is returned unchanged by `_to_mb`. -/
theorem to_mb_plain (ds fs : List Char)
    (hne : ds ≠ []) (hd : ∀ c ∈ ds, c.isDigit = true) (hf : ∀ c ∈ fs, c.isDigit = true) :
    _to_mb (numStr ds fs) = decToRat ds fs := by
  have hdws : ∀ c ∈ ds, isPyWs c = false := fun c hc => isPyWs_false_of_isDigit (hd c hc)
  have hfws : ∀ c ∈ fs, isPyWs c = false := fun c hc => isPyWs_false_of_isDigit (hf c hc)
  cases fs with
  | nil =>
    rw [numStr_nil, to_mb_eval hdws hne, plainNumber_int hne hd]
  | cons f0 ft =>
    have hmem : ∀ c ∈ (ds ++ '.' :: f0 :: ft), isPyWs c = false := by
      intro c hc
      rcases List.mem_append.mp hc with hc | hc
      · exact hdws c hc
      · rcases List.mem_cons.mp hc with rfl | hc
        · decide
        · exact hfws c hc
    have hlne : (ds ++ '.' :: f0 :: ft) ≠ [] := by simp
    rw [numStr_cons, to_mb_eval hmem hlne,
      plainNumber_frac hne (List.cons_ne_nil f0 ft) hd hf]

/-- A decimal number suffixed with a `K/M/G/T` letter (either case) is
scaled by the `_to_mb` factor of that letter. -/
theorem to_mb_suffixed (ds fs : List Char) (u : Char)
    (hne : ds ≠ []) (hd : ∀ c ∈ ds, c.isDigit = true) (hf : ∀ c ∈ fs, c.isDigit = true)
    (hu : u ∈ unitChars) :
    _to_mb (numStrU ds fs u) = decToRat ds fs * unitFactorMB u := by
  have hud : u.isDigit = false := by fin_cases hu <;> decide
  have hudot : (u == '.') = false := by fin_cases hu <;> decide
  have huws : isPyWs u = false := by fin_cases hu <;> decide
  have hdws : ∀ c ∈ ds, isPyWs c = false := fun c hc => isPyWs_false_of_isDigit (hd c hc)
  have hfws : ∀ c ∈ fs, isPyWs c = false := fun c hc => isPyWs_false_of_isDigit (hf c hc)
  cases fs with
  | nil =>
    have hmem : ∀ c ∈ (ds ++ u :: []), isPyWs c = false := by
      intro c hc
      rcases List.mem_append.mp hc with hc | hc
      · exact hdws c hc
      · rcases List.mem_cons.mp hc with rfl | hc
        · exact huws
        · cases hc
    have hlne : (ds ++ u :: []) ≠ [] := by simp
    rw [numStrU_nil, to_mb_eval hmem hlne, plainNumber_none_unit hd hud hudot,
      numUnit_int hne hd hud hudot hu]
  | cons f0 ft =>
    have hmem : ∀ c ∈ (ds ++ '.' :: ((f0 :: ft) ++ u :: [])), isPyWs c = false := by
      intro c hc
      rcases List.mem_append.mp hc with hc | hc
      · exact hdws c hc
      · rcases List.mem_cons.mp hc with rfl | hc
        · decide
        · rcases List.mem_append.mp hc with hc | hc
          · exact hfws c hc
          · rcases List.mem_cons.mp hc with rfl | hc
            · exact huws
            · cases hc
    have hlne : (ds ++ '.' :: ((f0 :: ft) ++ u :: [])) ≠ [] := by simp
    rw [numStrU_cons, to_mb_eval hmem hlne,
      plainNumber_none_fracUnit hd hf hud,
      numUnit_frac hne (List.cons_ne_nil f0 ft) hd hf hud hu]

/-- Inputs matching neither number form yield `0`, with no exception. -/
theorem to_mb_unrecognized (s : String)
    (hplain : plainNumber? (pyStrip s).data = none)
    (hunit : numUnit? (pyStrip s).data = none) : _to_mb s = 0 := by
  unfold _to_mb
  by_cases hempty : (pyStrip s).data.isEmpty
  · simp [hempty]
  · simp [hempty, hplain, hunit]

/-- **C10.**  The storage-quantity normaliser `_to_mb` returns megabytes: a
plain decimal number is returned unchanged; a decimal number suffixed with a
unit letter `K`, `M`, `G` or `T` (either case) is scaled by `1/1024`, `1`,
`1024`, `1024*1024` respectively; the empty string and every input matching
neither form yield exactly `0`; the function is total, so it never raises. -/
theorem claim_C10 (ds fs : List Char) (u : Char) (s : String)
    (hne : ds ≠ []) (hd : ∀ c ∈ ds, c.isDigit = true) (hf : ∀ c ∈ fs, c.isDigit = true)
    (hu : u ∈ unitChars) :
    _to_mb (numStr ds fs) = decToRat ds fs
      ∧ _to_mb (numStrU ds fs u) = decToRat ds fs * unitFactorMB u
      ∧ (unitFactorMB u.toUpper = unitFactorMB u
         ∧ unitFactorMB 'K' = 1 / 1024 ∧ unitFactorMB 'M' = 1
         ∧ unitFactorMB 'G' = 1024 ∧ unitFactorMB 'T' = 1024 * 1024)
      ∧ _to_mb "" = 0
      ∧ (plainNumber? (pyStrip s).data = none → numUnit? (pyStrip s).data = none →
          _to_mb s = 0) :=
  ⟨to_mb_plain ds fs hne hd hf,
   to_mb_suffixed ds fs u hne hd hf hu,
   ⟨by fin_cases hu <;> rfl, rfl, rfl, rfl, rfl⟩,
   rfl,
   fun hplain hunit => to_mb_unrecognized s hplain hunit⟩

/-- Closed instance of `claim_C10`: `"2.5"` stays `2.5` MB, `"2.5G"` scales
to `2560` MB, and the empty string yields `0`. -/
theorem claim_C10_witness :
    _to_mb (numStr ['2'] ['5']) = decToRat ['2'] ['5']
      ∧ _to_mb (numStrU ['2'] ['5'] 'G') = decToRat ['2'] ['5'] * unitFactorMB 'G'
      ∧ _to_mb "" = 0 := by
  have h := claim_C10 ['2'] ['5'] 'G' "fpc" (by decide) (by decide) (by decide) (by decide)
  exact ⟨h.1, h.2.1, h.2.2.2.1⟩

/-! ## Storage text parser (`_parse_storage_text`, src/lab.py lines 1053-1086)

The parser walks the `show system storage` text line by line, extracts
`total/used/free` quantities (via `K/M/G`-suffixed tokens, falling back to
bare numbers), reads the `NN%` utilisation, remembers the entry whose *line*
matches one of `PREF_MOUNT_PATTERNS`, and otherwise the entry with the
largest total. -/

/-- `pyStrip` on character lists. -/
def pyStripL (cs : List Char) : List Char :=
  ((cs.dropWhile isPyWs).reverse.dropWhile isPyWs).reverse

/-- Python `str.splitlines()` (ASCII line breaks `\n`, `\r`, `\r\n`). -/
def pySplitlinesGo (cur : List Char) : List Char → List (List Char)
  | [] => if cur.isEmpty then [] else [cur]
  | '\n' :: rest => cur :: pySplitlinesGo [] rest
  | '\r' :: '\n' :: rest => cur :: pySplitlinesGo [] rest
  | '\r' :: rest => cur :: pySplitlinesGo [] rest
  | c :: rest => pySplitlinesGo (cur ++ [c]) rest

def pySplitlines (cs : List Char) : List (List Char) := pySplitlinesGo [] cs

/-- One match attempt of `(\d+(?:\.\d+)?[KMG])` anchored at the head of the
input: maximal digit run, optional `.digits` fraction, then an upper-case
unit letter.  Returns the token and the remaining input. -/
def kmgTok? (cs : List Char) : Option (List Char × List Char) :=
  let ds := cs.takeWhile Char.isDigit
  let r := cs.dropWhile Char.isDigit
  if ds.isEmpty then none
  else
    match r with
    | [] => none
    | c :: rest =>
      if c == 'K' || c == 'M' || c == 'G' then some (ds ++ [c], rest)
      else if c == '.' then
        let fs := rest.takeWhile Char.isDigit
        let r2 := rest.dropWhile Char.isDigit
        if fs.isEmpty then none
        else
          match r2 with
          | [] => none
          | c2 :: rest2 =>
            if c2 == 'K' || c2 == 'M' || c2 == 'G' then
              some (ds ++ '.' :: fs ++ [c2], rest2)
            else none
      else none

/-- `re.findall(r'(\d+(?:\.\d+)?[KMG])', line)`: non-overlapping left-to-right
matches.  Fuel-driven scan; `fuel = cs.length` always suffices because every
match consumes at least one character. -/
def kmgFindallF : Nat → List Char → List (List Char)
  | 0, _ => []
  | _ + 1, [] => []
  | fuel + 1, c :: rest =>
    match kmgTok? (c :: rest) with
    | some (tok, after) => tok :: kmgFindallF fuel after
    | none => kmgFindallF fuel rest

def kmgFindall (cs : List Char) : List (List Char) := kmgFindallF cs.length cs

/-- `re.search(r'(\d+)%', line)`: leftmost maximal digit run directly
followed by `%`; returns the digit group. -/
def pctSearch? : List Char → Option (List Char)
  | [] => none
  | c :: rest =>
    if c.isDigit then
      let ds := (c :: rest).takeWhile Char.isDigit
      let r := (c :: rest).dropWhile Char.isDigit
      match r with
      | '%' :: _ => some ds
      | _ => pctSearch? rest
    else pctSearch? rest

/-- One match attempt of `\b(\d+(?:\.\d+)?)\b` anchored at the head (the
start boundary is checked by the caller): digit run, then a fractional part
only when a word boundary follows it; returns the group and the remainder
(scanning resumes at the regex match end). -/
def numTok? (cs : List Char) : Option (List Char × List Char) :=
  let ds := cs.takeWhile Char.isDigit
  let r := cs.dropWhile Char.isDigit
  if ds.isEmpty then none
  else
    match r with
    | [] => some (ds, [])
    | c :: rest =>
      if c == '.' then
        let fs := rest.takeWhile Char.isDigit
        let r2 := rest.dropWhile Char.isDigit
        if fs.isEmpty then some (ds, c :: rest)
        else
          match r2 with
          | [] => some (ds ++ '.' :: fs, [])
          | c2 :: _ => if isWordChar c2 then some (ds, c :: rest) else some (ds ++ '.' :: fs, r2)
      else if isWordChar c then none
      else some (ds, c :: rest)

/-- `re.findall(r'\b(\d+(?:\.\d+)?)\b', line)`.  `prevWord` tracks whether
the previous character is a word character (for the leading `\b`). -/
def numFindallF : Nat → Bool → List Char → List (List Char)
  | 0, _, _ => []
  | _ + 1, _, [] => []
  | fuel + 1, prevWord, c :: rest =>
    if !prevWord && c.isDigit then
      match numTok? (c :: rest) with
      | some (tok, after) => tok :: numFindallF fuel true after
      | none => numFindallF fuel (isWordChar c) rest
    else numFindallF fuel (isWordChar c) rest

def numFindall (cs : List Char) : List (List Char) := numFindallF cs.length false cs

/-- `PREF_MOUNT_PATTERNS = [r'/(?:\\.mount/)?var\\b', r'/var\\b']`
(src/lab.py line 996).  Because the patterns are *raw* strings, `\\b` is the
regex "escaped backslash, then letter b" — a literal backslash character
followed by `b`, not a word boundary.  The first pattern additionally admits
a `/\<any>mount/` infix before `var`.  `re.search` of either pattern over a
line therefore holds iff the line contains the six characters `/var\b`
literally, or the long `/\<any>mount/var\b` form. -/
def prefLongAt : List Char → Bool
  | a :: b :: c :: rest =>
    a == '/' && b == '\\' && c != '\n' &&
      startsWithL rest ['m', 'o', 'u', 'n', 't', '/', 'v', 'a', 'r', '\\', 'b']
  | _ => false

def anySuffix (p : List Char → Bool) : List Char → Bool
  | [] => p []
  | c :: rest => p (c :: rest) || anySuffix p rest

def prefMatches (line : List Char) : Bool :=
  containsSub line ['/', 'v', 'a', 'r', '\\', 'b'] || anySuffix prefLongAt line

/-- Python `round()` (single argument): round half to even, as an integer. -/
def pyRound (q : Rat) : Int :=
  let f : Int := ⌊q⌋
  let r : Rat := q - f
  if r < 1 / 2 then f
  else if 1 / 2 < r then f + 1
  else if f % 2 = 0 then f else f + 1

/-- One storage filesystem candidate: total, used, free (MB) and percent. -/
structure StEntry where
  total : Rat
  used : Rat
  free : Rat
  util : Rat
deriving Repr, DecidableEq

/-- Loop state of `_parse_storage_text`: running best-by-preference entry,
best-by-size entry, the size high-water mark and the last chosen line. -/
structure StState where
  best : Option StEntry
  bestByPref : Option StEntry
  maxTotal : Rat
  chosenLine : List Char
deriving Repr

def stInit : StState := { best := none, bestByPref := none, maxTotal := -1, chosenLine := [] }

/-- Exact value of a `\d+(?:\.\d+)?` token (Python `float` of the group;
the token grammar guarantees the shape). -/
def decOfTok (cs : List Char) : Rat :=
  let ds := cs.takeWhile Char.isDigit
  let r := cs.dropWhile Char.isDigit
  match r with
  | '.' :: fs => decToRat ds fs
  | _ => decToRat ds []

/-- The `total, used, free` extraction of one storage line: three
`K/M/G`-suffixed tokens via `_to_mb`, else three bare numbers, else skip. -/
def stNumbers? (line : List Char) : Option (Rat × Rat × Rat) :=
  let toks := kmgFindall line
  match toks with
  | t0 :: t1 :: t2 :: _ => some (_to_mb (String.mk t0), _to_mb (String.mk t1), _to_mb (String.mk t2))
  | _ =>
    let nums := numFindall line
    match nums with
    | n0 :: n1 :: n2 :: _ => some (decOfTok n0, decOfTok n1, decOfTok n2)
    | _ => none

/-- Processing of one raw line of `_parse_storage_text` (loop body,
src/lab.py lines 1055-1078). -/
def stepStorageLine (st : StState) (rawLine : List Char) : StState :=
  let line := pyStripL rawLine
  if line.isEmpty then st
  else if containsSub line "Filesystem".data && containsSub line "Mounted on".data then st
  else if !containsSub line ['%'] || !containsSub line ['/'] then st
  else
    match stNumbers? line with
    | none => st
    | some (total, used, free) =>
      let util : Rat :=
        match pctSearch? line with
        | some ds => (digitsToNat ds : Rat)
        | none => if total > 0 then ((pyRound (used / total * 100) : Int) : Rat) else 0
      let entry : StEntry := { total := total, used := used, free := free, util := util }
      let st1 :=
        if prefMatches line then { st with bestByPref := some entry, chosenLine := line }
        else st
      if total > st1.maxTotal then
        { st1 with maxTotal := total, best := some entry, chosenLine := line }
      else st1

/-- Result record of `_parse_storage_text` (the returned dict). -/
structure StorageOut where
  total_mb : Option Int
  used_mb : Option Int
  free_mb : Option Int
  util_percent : Option Int
  chosen : String
deriving Repr, DecidableEq

/-- Embedding of `_parse_storage_text` (src/lab.py lines 1053-1086). -/
def _parse_storage_text (storage_text : String) : StorageOut :=
  let st := (pySplitlines storage_text.data).foldl stepStorageLine stInit
  let picked :=
    match st.bestByPref with
    | some e => some e
    | none => st.best
  match picked with
  | some e =>
    { total_mb := some (pyRound e.total), used_mb := some (pyRound e.used),
      free_mb := some (pyRound e.free), util_percent := some (pyRound e.util),
      chosen := String.mk st.chosenLine }
  | none =>
    { total_mb := none, used_mb := none, free_mb := none, util_percent := none,
      chosen := String.mk st.chosenLine }

/-! ### Claim C1: mount-point preference in the storage parser -/

theorem mem_of_startsWithL {hay pat : List Char} (h : startsWithL hay pat = true) :
    ∀ c ∈ pat, c ∈ hay := by
  induction pat generalizing hay with
  | nil => intro c hc; cases hc
  | cons p ps ih =>
    cases hay with
    | nil => simp [startsWithL] at h
    | cons a t =>
      simp only [startsWithL, Bool.and_eq_true, beq_iff_eq] at h
      intro c hc
      rcases List.mem_cons.mp hc with rfl | hc
      · rw [← h.1]; exact List.mem_cons_self a t
      · exact List.mem_cons_of_mem a (ih h.2 c hc)

theorem mem_of_containsSub {hay pat : List Char} (h : containsSub hay pat = true) :
    ∀ c ∈ pat, c ∈ hay := by
  induction hay with
  | nil => exact mem_of_startsWithL h
  | cons a t ih =>
    unfold containsSub at h
    simp only [Bool.or_eq_true] at h
    rcases h with h1 | h1
    · exact mem_of_startsWithL h1
    · exact fun c hc => List.mem_cons_of_mem a (ih h1 c hc)

theorem backslash_of_prefLongAt {s : List Char} (h : prefLongAt s = true) : '\\' ∈ s := by
  unfold prefLongAt at h
  split at h
  · next a b c rest =>
    simp only [Bool.and_eq_true, beq_iff_eq] at h
    rw [h.1.1.2]
    simp
  · cases h

theorem backslash_of_anySuffix_prefLongAt {l : List Char}
    (h : anySuffix prefLongAt l = true) : '\\' ∈ l := by
  induction l with
  | nil => exact absurd (backslash_of_prefLongAt h) (List.not_mem_nil _)
  | cons a t ih =>
    unfold anySuffix at h
    simp only [Bool.or_eq_true] at h
    rcases h with h1 | h1
    · exact backslash_of_prefLongAt h1
    · exact List.mem_cons_of_mem a (ih h1)

/-- Both `PREF_MOUNT_PATTERNS` require a literal backslash character, so they
never match a line without one — in particular never a plain `/var` mount. -/
theorem prefMatches_false_of_no_backslash {line : List Char} (h : '\\' ∉ line) :
    prefMatches line = false := by
  unfold prefMatches
  cases h1 : containsSub line ['/', 'v', 'a', 'r', '\\', 'b'] with
  | true => exact absurd (mem_of_containsSub h1 '\\' (by decide)) h
  | false =>
    cases h2 : anySuffix prefLongAt line with
    | true => exact absurd (backslash_of_anySuffix_prefLongAt h2) h
    | false => rfl

/-- **C1** (refuted; the code, not the claim, is at fault).  On a storage
text listing a `/var`-mounted filesystem and a larger `/`-mounted
filesystem, `_parse_storage_text` returns the larger `/` entry, not the
`/var` entry: because `PREF_MOUNT_PATTERNS` are *raw* strings, `\\b`
denotes a literal backslash followed by `b`, so the mount-point preference
(second conjunct) can never match a backslash-free line, and the
largest-total fallback always decides. -/
theorem claim_C1 :
    _parse_storage_text "/dev/a 20.0G 2.0G 18.0G 10% /\n/dev/b 8.0G 1.0G 7.0G 13% /var"
        = { total_mb := some 20480, used_mb := some 2048, free_mb := some 18432,
            util_percent := some 10, chosen := "/dev/a 20.0G 2.0G 18.0G 10% /" }
      ∧ (∀ line : List Char, '\\' ∉ line → prefMatches line = false) := by
  refine ⟨?_, fun line h => prefMatches_false_of_no_backslash h⟩
  have e1 : _to_mb (String.mk ['2', '0', '.', '0', 'G']) = 20480 := by
    rw [show String.mk ['2', '0', '.', '0', 'G'] = numStrU ['2', '0'] ['0'] 'G' from rfl,
      to_mb_suffixed ['2', '0'] ['0'] 'G' (by decide) (by decide) (by decide) (by decide)]
    simp only [show unitFactorMB 'G' = (1024 : Rat) from rfl, decToRat,
      show digitsToNat ['2', '0'] = 20 from rfl, show digitsToNat ['0'] = 0 from rfl]
    norm_num
  have e2 : _to_mb (String.mk ['2', '.', '0', 'G']) = 2048 := by
    rw [show String.mk ['2', '.', '0', 'G'] = numStrU ['2'] ['0'] 'G' from rfl,
      to_mb_suffixed ['2'] ['0'] 'G' (by decide) (by decide) (by decide) (by decide)]
    simp only [show unitFactorMB 'G' = (1024 : Rat) from rfl, decToRat,
      show digitsToNat ['2'] = 2 from rfl, show digitsToNat ['0'] = 0 from rfl]
    norm_num
  have e3 : _to_mb (String.mk ['1', '8', '.', '0', 'G']) = 18432 := by
    rw [show String.mk ['1', '8', '.', '0', 'G'] = numStrU ['1', '8'] ['0'] 'G' from rfl,
      to_mb_suffixed ['1', '8'] ['0'] 'G' (by decide) (by decide) (by decide) (by decide)]
    simp only [show unitFactorMB 'G' = (1024 : Rat) from rfl, decToRat,
      show digitsToNat ['1', '8'] = 18 from rfl, show digitsToNat ['0'] = 0 from rfl]
    norm_num
  have e4 : _to_mb (String.mk ['8', '.', '0', 'G']) = 8192 := by
    rw [show String.mk ['8', '.', '0', 'G'] = numStrU ['8'] ['0'] 'G' from rfl,
      to_mb_suffixed ['8'] ['0'] 'G' (by decide) (by decide) (by decide) (by decide)]
    simp only [show unitFactorMB 'G' = (1024 : Rat) from rfl, decToRat,
      show digitsToNat ['8'] = 8 from rfl, show digitsToNat ['0'] = 0 from rfl]
    norm_num
  have e5 : _to_mb (String.mk ['1', '.', '0', 'G']) = 1024 := by
    rw [show String.mk ['1', '.', '0', 'G'] = numStrU ['1'] ['0'] 'G' from rfl,
      to_mb_suffixed ['1'] ['0'] 'G' (by decide) (by decide) (by decide) (by decide)]
    simp only [show unitFactorMB 'G' = (1024 : Rat) from rfl, decToRat,
      show digitsToNat ['1'] = 1 from rfl, show digitsToNat ['0'] = 0 from rfl]
    norm_num
  have e6 : _to_mb (String.mk ['7', '.', '0', 'G']) = 7168 := by
    rw [show String.mk ['7', '.', '0', 'G'] = numStrU ['7'] ['0'] 'G' from rfl,
      to_mb_suffixed ['7'] ['0'] 'G' (by decide) (by decide) (by decide) (by decide)]
    simp only [show unitFactorMB 'G' = (1024 : Rat) from rfl, decToRat,
      show digitsToNat ['7'] = 7 from rfl, show digitsToNat ['0'] = 0 from rfl]
    norm_num
  have hn1 : stNumbers? ("/dev/a 20.0G 2.0G 18.0G 10% /".data) = some (20480, 2048, 18432) := by
    have h : stNumbers? ("/dev/a 20.0G 2.0G 18.0G 10% /".data)
        = some (_to_mb (String.mk ['2', '0', '.', '0', 'G']),
            _to_mb (String.mk ['2', '.', '0', 'G']),
            _to_mb (String.mk ['1', '8', '.', '0', 'G'])) := rfl
    rw [e1, e2, e3] at h
    exact h
  have hn2 : stNumbers? ("/dev/b 8.0G 1.0G 7.0G 13% /var".data) = some (8192, 1024, 7168) := by
    have h : stNumbers? ("/dev/b 8.0G 1.0G 7.0G 13% /var".data)
        = some (_to_mb (String.mk ['8', '.', '0', 'G']),
            _to_mb (String.mk ['1', '.', '0', 'G']),
            _to_mb (String.mk ['7', '.', '0', 'G'])) := rfl
    rw [e4, e5, e6] at h
    exact h
  have hstep1 : stepStorageLine stInit ("/dev/a 20.0G 2.0G 18.0G 10% /".data)
      = { best := some ⟨20480, 2048, 18432, 10⟩, bestByPref := none, maxTotal := 20480,
          chosenLine := "/dev/a 20.0G 2.0G 18.0G 10% /".data } := by
    simp +decide only [stepStorageLine, hn1,
      show pyStripL ("/dev/a 20.0G 2.0G 18.0G 10% /".data)
          = "/dev/a 20.0G 2.0G 18.0G 10% /".data from by decide,
      show pctSearch? ("/dev/a 20.0G 2.0G 18.0G 10% /".data) = some ['1', '0'] from by decide,
      show prefMatches ("/dev/a 20.0G 2.0G 18.0G 10% /".data) = false from by decide,
      show ((stInit.maxTotal < (20480 : Rat)) = True) from by norm_num [stInit],
      show digitsToNat ['1', '0'] = 10 from rfl]
    norm_num [stInit]
  have hstep2 : stepStorageLine
        { best := some ⟨20480, 2048, 18432, 10⟩, bestByPref := none, maxTotal := 20480,
          chosenLine := "/dev/a 20.0G 2.0G 18.0G 10% /".data }
        ("/dev/b 8.0G 1.0G 7.0G 13% /var".data)
      = { best := some ⟨20480, 2048, 18432, 10⟩, bestByPref := none, maxTotal := 20480,
          chosenLine := "/dev/a 20.0G 2.0G 18.0G 10% /".data } := by
    simp +decide only [stepStorageLine, hn2,
      show pyStripL ("/dev/b 8.0G 1.0G 7.0G 13% /var".data)
          = "/dev/b 8.0G 1.0G 7.0G 13% /var".data from by decide,
      show pctSearch? ("/dev/b 8.0G 1.0G 7.0G 13% /var".data) = some ['1', '3'] from by decide,
      show prefMatches ("/dev/b 8.0G 1.0G 7.0G 13% /var".data) = false from by decide,
      show (((20480 : Rat) < (8192 : Rat)) = False) from by norm_num,
      show digitsToNat ['1', '3'] = 13 from rfl, if_true, if_false]
  have hlines : pySplitlines
        ("/dev/a 20.0G 2.0G 18.0G 10% /\n/dev/b 8.0G 1.0G 7.0G 13% /var".data)
      = ["/dev/a 20.0G 2.0G 18.0G 10% /".data, "/dev/b 8.0G 1.0G 7.0G 13% /var".data] := by
    decide
  unfold _parse_storage_text
  rw [hlines]
  simp only [List.foldl_cons, List.foldl_nil, hstep1, hstep2]
  simp only [show pyRound (20480 : Rat) = 20480 from by norm_num [pyRound],
    show pyRound (2048 : Rat) = 2048 from by norm_num [pyRound],
    show pyRound (18432 : Rat) = 18432 from by norm_num [pyRound],
    show pyRound (10 : Rat) = 10 from by norm_num [pyRound]]

/-- Closed instance of the second conjunct of `claim_C1`: the `/var` line of
the failing input does not match the mount-point preference patterns. -/
theorem claim_C1_witness : prefMatches ("/dev/b 8.0G 1.0G 7.0G 13% /var".data) = false :=
  claim_C1.2 _ (by decide)

/-! ## Session paging bookkeeping (claim C3)

`JunosCliSession` (src/lab.py lines 1107-1114) starts with
`_paging_disabled = False`.  `ensure_no_paging` (lines 1143-1152) sends
`set cli screen-length 0` only when the flag is unset, and then sets the
flag.  `junos_run_text` (line 1195) calls `ensure_no_paging` before its
command.  `junos_xml` (lines 1240-1241) first sends
`set cli screen-length 0` *unconditionally* and only then calls
`ensure_no_paging`.  `junos_xml_save_and_read` (line 1263) sends it
unconditionally on every call and never calls `ensure_no_paging`.
The state records the flag and the number of no-paging sends, split into
the flag-guarded sends of `ensure_no_paging` and the unconditional ones. -/

structure SessionState where
  pagingDisabled : Bool
  ensureSends : Nat
  directSends : Nat
deriving Repr, DecidableEq

/-- Fresh session: `_paging_disabled = False`, nothing sent yet. -/
def sessionInit : SessionState :=
  { pagingDisabled := false, ensureSends := 0, directSends := 0 }

/-- Total number of times `set cli screen-length 0` went to the device. -/
def noPagingSends (st : SessionState) : Nat := st.ensureSends + st.directSends

/-- Embedding of `ensure_no_paging` (src/lab.py lines 1143-1152). -/
def ensure_no_paging (st : SessionState) : SessionState :=
  if st.pagingDisabled then st
  else { st with ensureSends := st.ensureSends + 1, pagingDisabled := true }

/-- The command-issuing operations of a session that touch the no-paging
command: `junos_run_text`, `junos_xml`, `junos_xml_save_and_read`. -/
inductive SessOp where
  | runText
  | xmlCmd
  | saveRead
deriving Repr, DecidableEq

/-- Effect of one operation on the paging bookkeeping. -/
def stepSessOp (st : SessionState) : SessOp → SessionState
  | SessOp.runText => ensure_no_paging st
  | SessOp.xmlCmd => ensure_no_paging { st with directSends := st.directSends + 1 }
  | SessOp.saveRead => { st with directSends := st.directSends + 1 }

/-- A whole session: any sequence of operations from a fresh session. -/
def runSessOps (ops : List SessOp) : SessionState := ops.foldl stepSessOp sessionInit

/-- An operation that sends the no-paging command unconditionally. -/
def isDirectOp (op : SessOp) : Bool :=
  op == SessOp.xmlCmd || op == SessOp.saveRead

/-- The ensure budget `ensureSends + (1 if the flag is still clear)` is
exactly preserved by every operation. -/
def ensureBudget (st : SessionState) : Nat :=
  st.ensureSends + (if st.pagingDisabled then 0 else 1)

theorem stepSessOp_ensureBudget (st : SessionState) (op : SessOp) :
    ensureBudget (stepSessOp st op) = ensureBudget st := by
  cases op <;> by_cases hpd : st.pagingDisabled <;>
    simp [stepSessOp, ensure_no_paging, ensureBudget, hpd]

theorem foldl_ensureBudget (ops : List SessOp) (st : SessionState) :
    ensureBudget (ops.foldl stepSessOp st) = ensureBudget st := by
  induction ops generalizing st with
  | nil => rfl
  | cons op rest ih =>
    rw [List.foldl_cons, ih (stepSessOp st op), stepSessOp_ensureBudget]

theorem foldl_directSends (ops : List SessOp) (st : SessionState) :
    (ops.foldl stepSessOp st).directSends = st.directSends + ops.countP isDirectOp := by
  induction ops generalizing st with
  | nil => simp
  | cons op rest ih =>
    rw [List.foldl_cons, List.countP_cons, ih (stepSessOp st op)]
    cases op <;> by_cases hpd : st.pagingDisabled <;>
      simp [stepSessOp, ensure_no_paging, isDirectOp, hpd] <;> omega

/-- The claim "`set cli screen-length 0` is sent at most once per session"
is false: a single `junos_xml` call sends it twice (once unconditionally at
line 1240, once via `ensure_no_paging` at line 1241). -/
theorem claim_C3_counterexample :
    noPagingSends (runSessOps [SessOp.xmlCmd]) = 2
      ∧ ¬ noPagingSends (runSessOps [SessOp.xmlCmd]) ≤ 1 := by
  decide

/-- **C3** (amended).  Per session, the flag-guarded path (`ensure_no_paging`)
issues the no-paging command at most once, but `junos_xml` and
`junos_xml_save_and_read` additionally send it unconditionally on every
call, so across a sequence of operations the total number of no-paging
sends is exactly (number of XML / save-and-read operations) plus the at
most one flag-guarded send. -/
theorem claim_C3 (ops : List SessOp) :
    (runSessOps ops).ensureSends ≤ 1
      ∧ noPagingSends (runSessOps ops)
          = (ops.countP isDirectOp) + (runSessOps ops).ensureSends := by
  have hb := foldl_ensureBudget ops sessionInit
  have hd := foldl_directSends ops sessionInit
  have hb0 : ensureBudget sessionInit = 1 := rfl
  rw [hb0] at hb
  unfold runSessOps noPagingSends
  constructor
  · unfold ensureBudget at hb
    omega
  · rw [hd]
    simp only [sessionInit]
    omega

/-! ## XML document trees

The structured parsers walk `xml.dom.minidom` documents.  The claims under
study concern the walks over an already-parsed tree, so the tree is the
embedding's input (`Option Xml`, `none` for a failed parse); the repair
stage that produces parseable text is treated separately (claims C5/C6).
Attributes are omitted from the node type: none of the embedded walks reads
them.  `getElementsByTagName` on an element returns its proper descendant
elements with the tag, in document (preorder) order; on the document it
also considers the root element. -/

inductive Xml where
  | elem (tag : String) (children : List Xml)
  | text (data : String)
deriving Repr

def Xml.tagOf : Xml → String
  | .elem t _ => t
  | .text _ => ""

mutual

/-- All descendant-or-self elements of a node, in document order. -/
def descOrSelf : Xml → List Xml
  | .text _ => []
  | .elem t ch => Xml.elem t ch :: descList ch

def descList : List Xml → List Xml
  | [] => []
  | x :: xs => descOrSelf x ++ descList xs

end

/-- `Element.getElementsByTagName` (proper descendants only). -/
def getElementsByTagName (x : Xml) (tag : String) : List Xml :=
  match x with
  | .text _ => []
  | .elem _ ch => (descList ch).filter (fun n => n.tagOf == tag)

/-- `Document.getElementsByTagName` (root element included). -/
def docElementsByTagName (root : Xml) (tag : String) : List Xml :=
  (descOrSelf root).filter (fun n => n.tagOf == tag)

/-- `node.firstChild.data` when the first child is a text node.  (In the
Python, accessing `.data` on an element first child raises; every such
access in the embedded walks is inside a `try`, either per-field in
`_get_first_text` — yielding `''` — or around the whole parser — yielding
the records accumulated so far, a prefix of the no-exception result, which
does not affect the per-record claims.) -/
def firstChildData? : Xml → Option String
  | .elem _ (Xml.text d :: _) => some d
  | _ => none

/-- `_get_first_text` (src/lab.py lines 509-513). -/
def _get_first_text (parent : Xml) (tag : String) : String :=
  match getElementsByTagName parent tag with
  | [] => ""
  | n :: _ =>
    match firstChildData? n with
    | some d => pyStrip d
    | none => ""

/-! ## Python `int()` -/

/-- Digit run with single underscores allowed between digits. -/
def pyIntDigitsGo (acc : Nat) : List Char → Option Nat
  | [] => some acc
  | '_' :: c :: rest =>
    if c.isDigit then pyIntDigitsGo (acc * 10 + (c.toNat - 48)) rest else none
  | c :: rest =>
    if c.isDigit then pyIntDigitsGo (acc * 10 + (c.toNat - 48)) rest else none

def pyIntCore : List Char → Option Nat
  | [] => none
  | c :: rest => if c.isDigit then pyIntDigitsGo (c.toNat - 48) rest else none

/-- Python `int(str)`: surrounding whitespace, an optional sign, then
digits with optional single underscores between digits; anything else
raises (`none`). -/
def pyIntOfString? (s : String) : Option Int :=
  match pyStripL s.data with
  | '+' :: rest => (pyIntCore rest).map fun n => (n : Int)
  | '-' :: rest => (pyIntCore rest).map fun n => -(n : Int)
  | rest => (pyIntCore rest).map fun n => (n : Int)

/-! ## Interface parser (`parse_interfaces_xml_basic`, src/lab.py 516-550) -/

/-- Per-`physical-interface` raw fields (lines 524-538). -/
structure PhysEntry where
  name : String
  desc : String
  speed : String
  inBps : Int
  outBps : Int
  lastFlapped : String
deriving Repr, DecidableEq

/-- Output record (the dict appended at line 545). -/
structure IfaceRow where
  iface : String
  desc : String
  capacity : String
  traffic_gb : Rat
  util : Rat
  last_flapped : String
deriving Repr, DecidableEq

def startsWithStr (s pre : String) : Bool := startsWithL s.data pre.data

/-- Field extraction for one `physical-interface` element (lines 524-538):
first `name`/`description`/`speed` descendants, `input-bps`/`output-bps`
under the first `traffic-statistics` (unparsable integers become 0), first
`interface-flapped`. -/
def extractPhys (phys : Xml) : PhysEntry :=
  let name :=
    match getElementsByTagName phys "name" with
    | [] => ""
    | n :: _ => match firstChildData? n with | some d => pyStrip d | none => ""
  let desc :=
    match getElementsByTagName phys "description" with
    | [] => ""
    | n :: _ => match firstChildData? n with | some d => pyStrip d | none => ""
  let speed :=
    match getElementsByTagName phys "speed" with
    | [] => ""
    | n :: _ => match firstChildData? n with | some d => pyStrip d | none => ""
  let inOut : Int × Int :=
    match getElementsByTagName phys "traffic-statistics" with
    | [] => (0, 0)
    | ts :: _ =>
      let inBps :=
        match getElementsByTagName ts "input-bps" with
        | [] => 0
        | n :: _ =>
          match firstChildData? n with
          | some d => (pyIntOfString? (pyStrip d)).getD 0
          | none => 0
      let outBps :=
        match getElementsByTagName ts "output-bps" with
        | [] => 0
        | n :: _ =>
          match firstChildData? n with
          | some d => (pyIntOfString? (pyStrip d)).getD 0
          | none => 0
      (inBps, outBps)
  let lastFlapped :=
    match getElementsByTagName phys "interface-flapped" with
    | [] => ""
    | n :: _ => match firstChildData? n with | some d => pyStrip d | none => ""
  { name := name, desc := desc, speed := speed, inBps := inOut.1, outBps := inOut.2,
    lastFlapped := lastFlapped }

/-- Speed-text-to-capacity-class mapping (line 540). -/
def capOfSpeed (speed : String) : String :=
  let sUp := upperStr speed
  if strContains sUp "100G" then "100Gbps"
  else if strContains sUp "10G" then "10Gbps"
  else if strContains sUp "1G" || strContains sUp "1000M" then "1Gbps"
  else speed

/-- Capacity class to bit rate (line 541); unknown classes give 0. -/
def capBpsOf (cap : String) : Nat :=
  if cap == "100Gbps" then 100000000000
  else if cap == "10Gbps" then 10000000000
  else if cap == "1Gbps" then 1000000000
  else 0

/-- The utilisation of line 542: `max(in,out)/cap_bps` when the capacity is
known and the peak positive, else `0.0` (no division). -/
def utilOf (e : PhysEntry) : Rat :=
  if capBpsOf (capOfSpeed e.speed) > 0 ∧ 0 < max e.inBps e.outBps
  then ((max e.inBps e.outBps : Int) : Rat) / ((capBpsOf (capOfSpeed e.speed) : Nat) : Rat)
  else 0

/-- Lines 539-545: capacity mapping, utilisation, traffic, prefix filter. -/
def mkRow (e : PhysEntry) : Option IfaceRow :=
  if e.name ≠ "" ∧ (startsWithStr e.name "lc-" ∨ startsWithStr e.name "pfe-"
      ∨ startsWithStr e.name "pfh-") then none
  else if e.name ≠ "" ∧ (startsWithStr e.name "ae-" ∨ startsWithStr e.name "et-"
      ∨ startsWithStr e.name "xe-" ∨ startsWithStr e.name "ge-") then
    some { iface := e.name, desc := e.desc, capacity := capOfSpeed e.speed,
           traffic_gb := ((max e.inBps e.outBps : Int) : Rat) / ((1024 : Rat) ^ 3),
           util := utilOf e, last_flapped := e.lastFlapped }
  else none

/-- Embedding of `parse_interfaces_xml_basic` (src/lab.py lines 516-550),
taking the parsed document (`none`: empty input or failed parse → `[]`). -/
def parse_interfaces_xml_basic (doc? : Option Xml) : List IfaceRow :=
  match doc? with
  | none => []
  | some doc => ((docElementsByTagName doc "physical-interface").map extractPhys).filterMap mkRow

/-! ### Claims C7 and C9 -/

theorem startsWith_head_eq {cs t1 t2 : List Char} {p1 p2 : Char}
    (h1 : startsWithL cs (p1 :: t1) = true) (h2 : startsWithL cs (p2 :: t2) = true) :
    p1 = p2 := by
  cases cs with
  | nil => simp [startsWithL] at h1
  | cons c t =>
    simp only [startsWithL, Bool.and_eq_true, beq_iff_eq] at h1 h2
    rw [← h1.1, ← h2.1]

theorem startsWith_false_of_other {cs t1 t2 : List Char} {p1 p2 : Char}
    (h1 : startsWithL cs (p1 :: t1) = true) (hne : p1 ≠ p2) :
    startsWithL cs (p2 :: t2) = false := by
  cases hb : startsWithL cs (p2 :: t2) with
  | false => rfl
  | true => exact absurd (startsWith_head_eq h1 hb) hne

/-- Every parser output row comes from `mkRow` on an extracted entry. -/
theorem parse_interfaces_mem {doc? : Option Xml} {r : IfaceRow}
    (hr : r ∈ parse_interfaces_xml_basic doc?) :
    ∃ e, mkRow e = some r := by
  cases doc? with
  | none => cases hr
  | some doc =>
    obtain ⟨e, _, hm⟩ := List.mem_filterMap.mp hr
    exact ⟨e, hm⟩

/-- In a produced row, the interface name passed the physical-prefix filter. -/
theorem mkRow_some_name {e : PhysEntry} {r : IfaceRow} (hm : mkRow e = some r) :
    r.iface = e.name
      ∧ (startsWithStr e.name "ae-" = true ∨ startsWithStr e.name "et-" = true
         ∨ startsWithStr e.name "xe-" = true ∨ startsWithStr e.name "ge-" = true)
      ∧ r.util = utilOf e ∧ r.capacity = capOfSpeed e.speed
      ∧ r.traffic_gb = ((max e.inBps e.outBps : Int) : Rat) / ((1024 : Rat) ^ 3) := by
  unfold mkRow at hm
  split at hm
  · cases hm
  · split at hm
    · next h2 =>
      cases hm
      exact ⟨rfl, h2.2, rfl, rfl, rfl⟩
    · cases hm

/-- **C9.**  Every record returned by the interface parser is named with one
of the physical prefixes `ae-`, `et-`, `xe-`, `ge-`, and no record carries
an internal `lc-`, `pfe-` or `pfh-` pseudo-interface name. -/
theorem claim_C9 (doc? : Option Xml) (r : IfaceRow)
    (hr : r ∈ parse_interfaces_xml_basic doc?) :
    (startsWithStr r.iface "ae-" = true ∨ startsWithStr r.iface "et-" = true
       ∨ startsWithStr r.iface "xe-" = true ∨ startsWithStr r.iface "ge-" = true)
      ∧ startsWithStr r.iface "lc-" = false
      ∧ startsWithStr r.iface "pfe-" = false
      ∧ startsWithStr r.iface "pfh-" = false := by
  obtain ⟨e, hm⟩ := parse_interfaces_mem hr
  obtain ⟨hname, h4, -⟩ := mkRow_some_name hm
  rw [hname]
  refine ⟨h4, ?_, ?_, ?_⟩ <;>
    rcases h4 with h | h | h | h <;>
    exact startsWith_false_of_other h (by decide)

/-- A demonstration document: one `et-0/0/0` interface. -/
def demoDoc : Xml :=
  Xml.elem "rpc-reply"
    [Xml.elem "interface-information"
      [Xml.elem "physical-interface"
        [Xml.elem "name" [Xml.text "et-0/0/0"],
         Xml.elem "speed" [Xml.text "100Gbps"],
         Xml.elem "traffic-statistics"
           [Xml.elem "input-bps" [Xml.text "5"],
            Xml.elem "output-bps" [Xml.text "7"]]]]]

def demoRowDefault : IfaceRow :=
  { iface := "", desc := "", capacity := "", traffic_gb := 0, util := 0, last_flapped := "" }

/-- The row the parser produces for `demoDoc`. -/
def demoRow : IfaceRow := (parse_interfaces_xml_basic (some demoDoc)).headD demoRowDefault

theorem demoRow_mem : demoRow ∈ parse_interfaces_xml_basic (some demoDoc) := by
  have h : parse_interfaces_xml_basic (some demoDoc) = [demoRow] := rfl
  rw [h]
  exact List.mem_singleton.mpr rfl

/-- Closed instance of `claim_C9` at `demoDoc`. -/
theorem claim_C9_witness :
    (startsWithStr demoRow.iface "ae-" = true ∨ startsWithStr demoRow.iface "et-" = true
       ∨ startsWithStr demoRow.iface "xe-" = true ∨ startsWithStr demoRow.iface "ge-" = true)
      ∧ startsWithStr demoRow.iface "lc-" = false
      ∧ startsWithStr demoRow.iface "pfe-" = false
      ∧ startsWithStr demoRow.iface "pfh-" = false :=
  claim_C9 (some demoDoc) demoRow demoRow_mem

/-- **C7.**  Every parsed interface row arises from `mkRow`; when the speed
text maps to the 100-gigabit class, the reported utilisation is exactly
`max(input-bps, output-bps) / 100_000_000_000`; when the speed maps to no
recognised capacity class (inferred capacity 0), the utilisation is exactly
`0` and no division is performed. -/
theorem claim_C7 :
    (∀ (doc? : Option Xml) (r : IfaceRow), r ∈ parse_interfaces_xml_basic doc? →
       ∃ e, mkRow e = some r)
      ∧ (∀ (e : PhysEntry) (r : IfaceRow), strContains (upperStr e.speed) "100G" = true →
           0 ≤ e.inBps → 0 ≤ e.outBps → mkRow e = some r →
           r.util = ((max e.inBps e.outBps : Int) : Rat) / 100000000000)
      ∧ (∀ (e : PhysEntry) (r : IfaceRow), capBpsOf (capOfSpeed e.speed) = 0 →
           mkRow e = some r → r.util = 0) := by
  refine ⟨fun _ _ hr => parse_interfaces_mem hr, ?_, ?_⟩
  · intro e r hsp hin hout hm
    obtain ⟨-, -, hu, -, -⟩ := mkRow_some_name hm
    have hcap : capOfSpeed e.speed = "100Gbps" := by
      unfold capOfSpeed
      simp [hsp]
    rw [hu]
    unfold utilOf
    rw [hcap]
    have hbps : capBpsOf "100Gbps" = 100000000000 := rfl
    rw [hbps]
    by_cases hpk : 0 < max e.inBps e.outBps
    · rw [if_pos ⟨by norm_num, hpk⟩]
      norm_num
    · rw [if_neg (by simp [hpk])]
      have h0 : max e.inBps e.outBps = 0 := le_antisymm (by omega) (le_max_of_le_left hin)
      rw [h0]
      norm_num
  · intro e r hcap hm
    obtain ⟨-, -, hu, -, -⟩ := mkRow_some_name hm
    rw [hu]
    unfold utilOf
    rw [hcap]
    simp

def demoEntry100 : PhysEntry :=
  { name := "et-0/0/0", desc := "", speed := "100Gbps", inBps := 5, outBps := 7,
    lastFlapped := "" }

def demoEntry0 : PhysEntry :=
  { name := "xe-0/0/0", desc := "", speed := "OC-192", inBps := 3, outBps := 4,
    lastFlapped := "" }

def demoRow100 : IfaceRow := (mkRow demoEntry100).getD demoRowDefault

def demoRow0 : IfaceRow := (mkRow demoEntry0).getD demoRowDefault

/-- Closed instance of `claim_C7`: a 100G entry with rates 5 and 7 gets
utilisation `7 / 100_000_000_000`; an unrecognised `OC-192` speed gets 0. -/
theorem claim_C7_witness :
    demoRow100.util = ((max (5 : Int) 7 : Int) : Rat) / 100000000000
      ∧ demoRow0.util = 0 := by
  constructor
  · exact claim_C7.2.1 demoEntry100 demoRow100 (by decide) (by decide) (by decide) rfl
  · exact claim_C7.2.2 demoEntry0 demoRow0 (by decide) rfl

/-! ## Platform detection (`_detect_platform_and_sw`, src/lab.py 870-920)

The embedding covers the platform-selection component (lines 873-907); the
trailing OS-type/raw-version computations are independent of it and of the
claims.  Hardware records are the dicts built by `parse_hardware_inventory`
(only the three fields the detector reads are consulted; `U(x)` turns a
missing value into `''`). -/

structure HwItem where
  component_type : String
  slot : String
  part : String
  serial : String
  model : String
  version : String
  status : String
  comments : String
deriving Repr, DecidableEq

/-- `PLATFORM_TAGS` (src/lab.py lines 843-852), in dict insertion order. -/
def PLATFORM_TAGS : List (String × List String) :=
  [("PTX10004", ["PTX10004", "JNP10004", "JNP10K", "JNP10K-LC1202", "JNP10K-RE1",
     "JNP10004-CHAS"]),
   ("MX960", ["MX960", "CHAS-MX960", "ENHANCED MX960 MIDPLANE"]),
   ("MX480", ["MX480", "CHAS-MX480", "ENHANCED MX480 MIDPLANE"]),
   ("MX240", ["MX240", "CHAS-MX240"]),
   ("MX204", ["MX204"]),
   ("MX304", ["MX304", "CHAS-MX304"]),
   ("MX2008", ["MX2008"]),
   ("MX10003", ["MX10003"])]

/-- `blob = ' '.join([model, comp, slot])`, upper-cased fields (line 878). -/
def hwBlob (it : HwItem) : String :=
  upperStr it.model ++ " " ++ upperStr it.component_type ++ " " ++ upperStr it.slot

/-- First platform (in `PLATFORM_TAGS` order) with a tag occurring in the
blob. -/
def firstPlatformTag (blob : String) : Option String :=
  (PLATFORM_TAGS.find? fun pt => pt.2.any fun t => strContains blob t).map Prod.fst

/-- Stage (a), lines 875-887: the first hardware record whose blob contains
a known tag decides the platform.  (The `MIDPLANE`/`CHASSIS` branch at lines
882-884 re-runs the identical tag loop on the same blob and can never find
anything new; it is a no-op and is therefore not repeated here.) -/
def hwPlatform? : List HwItem → Option String
  | [] => none
  | it :: rest =>
    match firstPlatformTag (hwBlob it) with
    | some p => some p
    | none => hwPlatform? rest

/-- `[A-Z0-9\-]` (the `MODEL` token class; the text is upper-cased first). -/
def isTagChar (c : Char) : Bool :=
  (65 ≤ c.toNat && c.toNat ≤ 90) || c.isDigit || c == '-'

/-- `\b` between a final group character and the following character. -/
def boundaryOK (last : Char) : Option Char → Bool
  | none => isWordChar last
  | some n => isWordChar last != isWordChar n

/-- Greedy backtracking of a `+` group against a trailing `\b`: drop
characters from the end (reversed list) until the boundary holds. -/
def shrinkRunRev : List Char → Option Char → Option (List Char)
  | [], _ => none
  | c :: rest, next? =>
    if boundaryOK c next? then some (c :: rest)
    else shrinkRunRev rest (some c)

/-- Match attempt of `\bMODEL\s*:\s*([A-Z0-9\-]+)\b` at the head of `cs`
(`prevWord`: the preceding character is a word character). -/
def modelTokAt? (prevWord : Bool) (cs : List Char) : Option (List Char) :=
  if prevWord then none
  else if startsWithL cs "MODEL".data then
    let r1 := (cs.drop 5).dropWhile isPyWs
    match r1 with
    | ':' :: r2 =>
      let r3 := r2.dropWhile isPyWs
      let run := r3.takeWhile isTagChar
      let after := r3.dropWhile isTagChar
      (shrinkRunRev run.reverse after.head?).map List.reverse
    | _ => none
  else none

/-- `re.search` of the `MODEL` pattern: leftmost successful position. -/
def modelSearchGo : Bool → List Char → Option (List Char)
  | _, [] => none
  | prevWord, c :: rest =>
    match modelTokAt? prevWord (c :: rest) with
    | some g => some g
    | none => modelSearchGo (isWordChar c) rest

/-- `^PTX\d+$` shape. -/
def ptxShape (tag : String) : Bool :=
  match tag.data with
  | 'P' :: 'T' :: 'X' :: ds => !ds.isEmpty && ds.all Char.isDigit
  | _ => false

/-- `^MX\d+$` shape. -/
def mxShape (tag : String) : Bool :=
  match tag.data with
  | 'M' :: 'X' :: ds => !ds.isEmpty && ds.all Char.isDigit
  | _ => false

/-- Stage (b), lines 889-898: `Model:` token of the version text, matched
against tag prefixes, then against the `PTX\d+` / `MX\d+` shapes. -/
def modelPlatform? (showVer : String) : Option String :=
  match modelSearchGo false (upperStr showVer).data with
  | none => none
  | some g =>
    let tag := String.mk g
    match PLATFORM_TAGS.find? fun pt => pt.2.any fun t => startsWithStr tag t with
    | some pt => some pt.1
    | none =>
      if ptxShape tag then some tag
      else if mxShape tag then some tag
      else none

/-- Leftmost `pre` followed by at least one digit (greedy digit run):
`(PTX\d+)` / `(MX\d+)`. -/
def prefixNumSearch (pre : List Char) : List Char → Option (List Char)
  | [] => none
  | c :: rest =>
    if startsWithL (c :: rest) pre then
      let ds := ((c :: rest).drop pre.length).takeWhile Char.isDigit
      if ds.isEmpty then prefixNumSearch pre rest else some (pre ++ ds)
    else prefixNumSearch pre rest

/-- Stage (c), lines 900-906: platform-looking token of the node name. -/
def hostPlatform? (node : String) : Option String :=
  let hn := (upperStr node).data
  match prefixNumSearch ['P', 'T', 'X'] hn with
  | some g => some (String.mk g)
  | none => (prefixNumSearch ['M', 'X'] hn).map String.mk

/-- Embedding of the platform selection of `_detect_platform_and_sw`
(src/lab.py lines 873-907). -/
def _detect_platform (node : String) (hw : List HwItem) (showVer : String) : String :=
  match hwPlatform? hw with
  | some p => p
  | none =>
    match modelPlatform? showVer with
    | some p => p
    | none =>
      match hostPlatform? node with
      | some p => p
      | none => "Unknown"

/-! ### Claim C8 -/

theorem firstPlatformTag_mem {blob : String} {p : String}
    (h : firstPlatformTag blob = some p) : p ∈ PLATFORM_TAGS.map Prod.fst := by
  unfold firstPlatformTag at h
  obtain ⟨pt, hfind, hp⟩ := Option.map_eq_some'.mp h
  exact hp ▸ List.mem_map_of_mem Prod.fst (List.mem_of_find?_eq_some hfind)

theorem hwPlatform_mem {hw : List HwItem} {p : String}
    (h : hwPlatform? hw = some p) : p ∈ PLATFORM_TAGS.map Prod.fst := by
  induction hw with
  | nil => cases h
  | cons it rest ih =>
    unfold hwPlatform? at h
    cases hf : firstPlatformTag (hwBlob it) with
    | none => rw [hf] at h; exact ih h
    | some q => rw [hf] at h; cases h; exact firstPlatformTag_mem hf

theorem hwPlatform_ne_unknown {hw : List HwItem} {p : String}
    (h : hwPlatform? hw = some p) : p ≠ "Unknown" := by
  intro heq
  subst heq
  exact absurd (hwPlatform_mem h) (by decide)

theorem all_takeWhile_digits (cs : List Char) :
    ((cs.takeWhile Char.isDigit).all Char.isDigit) = true := by
  induction cs with
  | nil => rfl
  | cons c t ih =>
    rw [List.takeWhile_cons]
    cases hc : c.isDigit with
    | false => rfl
    | true => simp [hc, ih]

theorem prefixNumSearch_shape {pre cs g : List Char}
    (h : prefixNumSearch pre cs = some g) :
    ∃ ds, g = pre ++ ds ∧ ds ≠ [] ∧ ds.all Char.isDigit = true := by
  induction cs with
  | nil => cases h
  | cons c rest ih =>
    unfold prefixNumSearch at h
    by_cases hs : startsWithL (c :: rest) pre = true
    · rw [if_pos hs] at h
      by_cases hds : (((c :: rest).drop pre.length).takeWhile Char.isDigit).isEmpty = true
      · rw [if_pos hds] at h; exact ih h
      · rw [if_neg hds] at h
        cases h
        refine ⟨_, rfl, ?_, all_takeWhile_digits _⟩
        intro hnil
        rw [hnil] at hds
        exact hds rfl
    · rw [if_neg hs] at h
      exact ih h

theorem hostPlatform_ne_unknown {node : String} {p : String}
    (h : hostPlatform? node = some p) : p ≠ "Unknown" := by
  unfold hostPlatform? at h
  simp only [] at h
  intro heq
  subst heq
  cases hp : prefixNumSearch ['P', 'T', 'X'] (upperStr node).data with
  | some g =>
    rw [hp] at h
    have hgu : String.mk g = "Unknown" := Option.some.inj h
    obtain ⟨ds, hg, -, -⟩ := prefixNumSearch_shape hp
    have : ('P' :: 'T' :: 'X' :: ds) = "Unknown".data := by
      rw [show ('P' :: 'T' :: 'X' :: ds) = ['P', 'T', 'X'] ++ ds from rfl, ← hg]
      exact congrArg String.data hgu
    simp at this
  | none =>
    rw [hp] at h
    obtain ⟨g, hmx, hmk⟩ := Option.map_eq_some'.mp h
    obtain ⟨ds, hg, -, -⟩ := prefixNumSearch_shape hmx
    have : ('M' :: 'X' :: ds) = "Unknown".data := by
      rw [show ('M' :: 'X' :: ds) = ['M', 'X'] ++ ds from rfl, ← hg]
      exact congrArg String.data hmk
    simp at this

theorem ptxShape_ne_unknown {tag : String} (h : ptxShape tag = true) : tag ≠ "Unknown" := by
  intro heq; subst heq; exact absurd h (by decide)

theorem mxShape_ne_unknown {tag : String} (h : mxShape tag = true) : tag ≠ "Unknown" := by
  intro heq; subst heq; exact absurd h (by decide)

theorem modelPlatform_ne_unknown {ver : String} {p : String}
    (h : modelPlatform? ver = some p) : p ≠ "Unknown" := by
  unfold modelPlatform? at h
  cases hg : modelSearchGo false (upperStr ver).data with
  | none => rw [hg] at h; cases h
  | some g =>
    rw [hg] at h
    simp only [] at h
    cases hfind : PLATFORM_TAGS.find? fun pt => pt.2.any fun t => startsWithStr (String.mk g) t with
    | some pt =>
      rw [hfind] at h
      have hp1 : pt.1 = p := Option.some.inj h
      intro heq
      have hmem := List.mem_map_of_mem Prod.fst (List.mem_of_find?_eq_some hfind)
      rw [hp1, heq] at hmem
      exact absurd hmem (by decide)
    | none =>
      rw [hfind] at h
      by_cases hptx : ptxShape (String.mk g) = true
      · rw [if_pos hptx] at h
        cases h
        exact ptxShape_ne_unknown hptx
      · rw [if_neg (by simpa using hptx)] at h
        by_cases hmx : mxShape (String.mk g) = true
        · rw [if_pos hmx] at h
          cases h
          exact mxShape_ne_unknown hmx
        · rw [if_neg (by simpa using hmx)] at h
          cases h

/-- **C8.**  Platform detection is layered exactly as claimed: a hardware
record carrying a known platform tag decides the platform regardless of the
node identifier and version text; otherwise the `Model:` token of the
version text decides; otherwise a platform-looking token of the node
identifier; and `"Unknown"` is returned precisely when all three layers
fail. -/
theorem claim_C8 (node : String) (hw : List HwItem) (ver : String) :
    (∀ p, hwPlatform? hw = some p → ∀ (n v : String), _detect_platform n hw v = p)
      ∧ (∀ p, hwPlatform? hw = none → modelPlatform? ver = some p →
          _detect_platform node hw ver = p)
      ∧ (∀ p, hwPlatform? hw = none → modelPlatform? ver = none →
          hostPlatform? node = some p → _detect_platform node hw ver = p)
      ∧ (_detect_platform node hw ver = "Unknown" ↔
          hwPlatform? hw = none ∧ modelPlatform? ver = none ∧ hostPlatform? node = none) := by
  refine ⟨?_, ?_, ?_, ?_⟩
  · intro p hp n v
    unfold _detect_platform
    rw [hp]
  · intro p h1 h2
    unfold _detect_platform
    rw [h1, h2]
  · intro p h1 h2 h3
    unfold _detect_platform
    rw [h1, h2, h3]
  · constructor
    · intro h
      unfold _detect_platform at h
      cases h1 : hwPlatform? hw with
      | some p => rw [h1] at h; exact absurd h (hwPlatform_ne_unknown h1)
      | none =>
        rw [h1] at h
        cases h2 : modelPlatform? ver with
        | some p => rw [h2] at h; exact absurd h (modelPlatform_ne_unknown h2)
        | none =>
          rw [h2] at h
          cases h3 : hostPlatform? node with
          | some p => rw [h3] at h; exact absurd h (hostPlatform_ne_unknown h3)
          | none => exact ⟨rfl, rfl, rfl⟩
    · intro ⟨h1, h2, h3⟩
      unfold _detect_platform
      rw [h1, h2, h3]

/-- A hardware inventory carrying an MX960 chassis tag. -/
def demoHw : List HwItem :=
  [{ component_type := "Chassis", slot := "Chassis", part := "", serial := "",
     model := "CHAS-MX960", version := "", status := "Online", comments := "" }]

/-- Closed instances of `claim_C8`: the hardware tag wins although the node
identifier says PTX; the `Model:` token decides when no hardware matches;
the node identifier decides last; `"Unknown"` only when all fail. -/
theorem claim_C8_witness :
    _detect_platform "PTX10008-LAB" demoHw "Model: mx480" = "MX960"
      ∧ _detect_platform "PTX10008-LAB" [] "junk Model: MX10003 junk" = "MX10003"
      ∧ _detect_platform "JKT-MX204-01" [] "" = "MX204"
      ∧ _detect_platform "router-one" [] "no model here" = "Unknown" :=
  ⟨(claim_C8 "PTX10008-LAB" demoHw "Model: mx480").1 "MX960" (by decide)
      "PTX10008-LAB" "Model: mx480",
   (claim_C8 "PTX10008-LAB" [] "junk Model: MX10003 junk").2.1 "MX10003" rfl (by decide),
   (claim_C8 "JKT-MX204-01" [] "").2.2.1 "MX204" rfl (by decide) (by decide),
   (claim_C8 "router-one" [] "no model here").2.2.2.mpr ⟨rfl, by decide, by decide⟩⟩

/-! ## Loopback address (`parse_loopback0_ip`, src/lab.py 1205-1235)

The structured walk filters candidates through `__is_ipv4`; the two
free-text fallbacks return the raw regex group.  The document argument
models `_parse_fragments_to_dom (_extract_xml_fragment s)` (`none`: both
minidom attempts failed). -/

/-- Python `str.split(sep)` for a one-character separator. -/
def pySplitOnGo (sep : Char) (cur : List Char) : List Char → List (List Char)
  | [] => [cur]
  | c :: rest =>
    if c == sep then cur :: pySplitOnGo sep [] rest
    else pySplitOnGo sep (cur ++ [c]) rest

def pySplitOn (sep : Char) (cs : List Char) : List (List Char) := pySplitOnGo sep [] cs

/-- Embedding of `__is_ipv4` (src/lab.py lines 1231-1235): exactly four
`.`-separated parts, each a Python `int()` in `[0, 255]`; an `int()`
failure makes the whole check `False`. -/
def __is_ipv4 (val : String) : Bool :=
  let parts := pySplitOn '.' val.data
  parts.length == 4 && parts.all fun p =>
    match pyIntOfString? (String.mk p) with
    | some n => decide (0 ≤ n) && decide (n ≤ 255)
    | none => false

/-- Lines 1217-1219: first validated `ifa-local` of an `interface-address`. -/
def ipFromIA (ia : Xml) : Option String :=
  let val := _get_first_text ia "ifa-local"
  if __is_ipv4 val then some val else none

/-- Lines 1214-1219: an `inet` address family's interface addresses. -/
def ipFromAF (af : Xml) : Option String :=
  let afn := _get_first_text af "address-family-name"
  if afn != "" && strContains (lowerStr afn) "inet" then
    (getElementsByTagName af "interface-address").findSome? ipFromIA
  else none

/-- Lines 1211-1219: the `lo0.0` logical interface. -/
def ipFromLI (li : Xml) : Option String :=
  let name := _get_first_text li "name"
  if name != "" && lowerStr (pyStrip name) == "lo0.0" then
    (getElementsByTagName li "address-family").findSome? ipFromAF
  else none

/-- Lines 1220-1222: any `ifa-local` text in the document. -/
def ipFromIfaLocal (c : Xml) : Option String :=
  let val :=
    match firstChildData? c with
    | some d => pyStrip d
    | none => ""
  if __is_ipv4 val then some val else none

/-- The structured walk of lines 1210-1222. -/
def loopbackWalk? (doc : Xml) : Option String :=
  match (docElementsByTagName doc "logical-interface").findSome? ipFromLI with
  | some v => some v
  | none => (docElementsByTagName doc "ifa-local").findSome? ipFromIfaLocal

/-- One `\d{1,3}` run with regex backtracking: greedily try three, two,
then one digit, passing the group and the remainder to the continuation. -/
def tryRun {α : Type} (cs : List Char) (k : List Char → List Char → Option α) : Option α :=
  match cs with
  | d1 :: d2 :: d3 :: rest =>
    if d1.isDigit then
      if d2.isDigit then
        if d3.isDigit then
          k [d1, d2, d3] rest <|> k [d1, d2] (d3 :: rest) <|> k [d1] (d2 :: d3 :: rest)
        else k [d1, d2] (d3 :: rest) <|> k [d1] (d2 :: d3 :: rest)
      else k [d1] (d2 :: d3 :: rest)
    else none
  | [d1, d2] =>
    if d1.isDigit then
      if d2.isDigit then k [d1, d2] [] <|> k [d1] [d2]
      else k [d1] [d2]
    else none
  | [d1] => if d1.isDigit then k [d1] [] else none
  | [] => none

/-- `\d{1,3}(?:\.\d{1,3}){3}` with regex backtracking; the continuation
receives the full dotted group and the remainder. -/
def quadMatch {α : Type} (cs : List Char) (k : List Char → List Char → Option α) : Option α :=
  tryRun cs fun g1 r1 =>
    match r1 with
    | c1 :: r1' =>
      if c1 == '.' then
        tryRun r1' fun g2 r2 =>
          match r2 with
          | c2 :: r2' =>
            if c2 == '.' then
              tryRun r2' fun g3 r3 =>
                match r3 with
                | c3 :: r3' =>
                  if c3 == '.' then
                    tryRun r3' fun g4 r4 =>
                      k (g1 ++ '.' :: (g2 ++ '.' :: (g3 ++ '.' :: g4))) r4
                  else none
                | [] => none
            else none
          | [] => none
      else none
    | [] => none

/-- `re.search(r'<ifa-local>\s*(\d{1,3}(?:\.\d{1,3}){3})\s*</ifa-local>', s)`
(line 1225), leftmost match, returning the group. -/
def ifaLocalQuad? : List Char → Option (List Char)
  | [] => none
  | c :: rest =>
    (if startsWithL (c :: rest) "<ifa-local>".data then
       quadMatch (((c :: rest).drop 11).dropWhile isPyWs) fun g after =>
         if startsWithL (after.dropWhile isPyWs) "</ifa-local>".data then some g else none
     else none) <|> ifaLocalQuad? rest

def startsWithCaselessL : List Char → List Char → Bool
  | _, [] => true
  | [], _ :: _ => false
  | c :: cs, p :: ps => (c.toLower == p.toLower) && startsWithCaselessL cs ps

/-- `re.search(r'\binet\s+(\d{1,3}(?:\.\d{1,3}){3})\b', s, re.IGNORECASE)`
(line 1227); `prevWord` tracks the word-character status of the previous
character for the leading `\b`. -/
def inetQuadGo : Bool → List Char → Option (List Char)
  | _, [] => none
  | prevWord, c :: rest =>
    (if !prevWord && startsWithCaselessL (c :: rest) "inet".data then
       let r := (c :: rest).drop 4
       if (r.takeWhile isPyWs).isEmpty then none
       else
         quadMatch (r.dropWhile isPyWs) fun g after =>
           match after with
           | [] => some g
           | a :: _ => if isWordChar a then none else some g
     else none) <|> inetQuadGo (isWordChar c) rest

/-- Embedding of `parse_loopback0_ip` (src/lab.py lines 1205-1228). -/
def parse_loopback0_ip (doc? : Option Xml) (s : String) : String :=
  if s.data.isEmpty then "-"
  else
    match doc?.bind loopbackWalk? with
    | some v => v
    | none =>
      match ifaLocalQuad? s.data with
      | some g => String.mk g
      | none =>
        match inetQuadGo false s.data with
        | some g => String.mk g
        | none => "-"

/-! ### Claim C2 -/

/-- A well-formed `\d{1,3}` group. -/
def okRun (g : List Char) : Prop :=
  g ≠ [] ∧ g.length ≤ 3 ∧ g.all Char.isDigit = true

/-- The shape the fallback regexes guarantee: four dot-separated groups of
one to three digits (and nothing about the `[0,255]` range). -/
def isQuadGroups (v : List Char) : Prop :=
  ∃ g1 g2 g3 g4, v = g1 ++ '.' :: (g2 ++ '.' :: (g3 ++ '.' :: g4))
    ∧ okRun g1 ∧ okRun g2 ∧ okRun g3 ∧ okRun g4

theorem tryRun_cases {α : Type} {cs : List Char} {k : List Char → List Char → Option α}
    {a : α} (h : tryRun cs k = some a) :
    ∃ g rest, k g rest = some a ∧ okRun g := by
  unfold tryRun at h
  split at h
  · next d1 d2 d3 rest =>
    split_ifs at h with h1 h2 h3
    · rcases (Option.orElse_eq_some _ _ _).mp h with h' | ⟨-, h'⟩
      · exact ⟨_, _, h', by simp, by simp, by simp [h1, h2, h3]⟩
      · rcases (Option.orElse_eq_some _ _ _).mp h' with h'' | ⟨-, h''⟩
        · exact ⟨_, _, h'', by simp, by simp, by simp [h1, h2]⟩
        · exact ⟨_, _, h'', by simp, by simp, by simp [h1]⟩
    · rcases (Option.orElse_eq_some _ _ _).mp h with h' | ⟨-, h'⟩
      · exact ⟨_, _, h', by simp, by simp, by simp [h1, h2]⟩
      · exact ⟨_, _, h', by simp, by simp, by simp [h1]⟩
    · exact ⟨_, _, h, by simp, by simp, by simp [h1]⟩
  · next d1 d2 =>
    split_ifs at h with h1 h2
    · rcases (Option.orElse_eq_some _ _ _).mp h with h' | ⟨-, h'⟩
      · exact ⟨_, _, h', by simp, by simp, by simp [h1, h2]⟩
      · exact ⟨_, _, h', by simp, by simp, by simp [h1]⟩
    · exact ⟨_, _, h, by simp, by simp, by simp [h1]⟩
  · next d1 =>
    split_ifs at h with h1
    · exact ⟨_, _, h, by simp, by simp, by simp [h1]⟩
  · cases h

theorem quadMatch_cases {α : Type} {cs : List Char} {k : List Char → List Char → Option α}
    {a : α} (h : quadMatch cs k = some a) :
    ∃ g1 g2 g3 g4 rest,
      k (g1 ++ '.' :: (g2 ++ '.' :: (g3 ++ '.' :: g4))) rest = some a
        ∧ okRun g1 ∧ okRun g2 ∧ okRun g3 ∧ okRun g4 := by
  unfold quadMatch at h
  obtain ⟨g1, r1, h1, hg1⟩ := tryRun_cases h
  match r1, h1 with
  | [], h1 => cases h1
  | c1 :: r1', h1 =>
    rw [show (match c1 :: r1' with
        | c1 :: r1' => if c1 == '.' then _ else none
        | [] => none) = if c1 == '.' then _ else none from rfl] at h1
    split_ifs at h1 with hc1
    obtain ⟨g2, r2, h2, hg2⟩ := tryRun_cases h1
    match r2, h2 with
    | [], h2 => cases h2
    | c2 :: r2', h2 =>
      rw [show (match c2 :: r2' with
          | c2 :: r2' => if c2 == '.' then _ else none
          | [] => none) = if c2 == '.' then _ else none from rfl] at h2
      split_ifs at h2 with hc2
      obtain ⟨g3, r3, h3, hg3⟩ := tryRun_cases h2
      match r3, h3 with
      | [], h3 => cases h3
      | c3 :: r3', h3 =>
        rw [show (match c3 :: r3' with
            | c3 :: r3' => if c3 == '.' then _ else none
            | [] => none) = if c3 == '.' then _ else none from rfl] at h3
        split_ifs at h3 with hc3
        obtain ⟨g4, r4, h4, hg4⟩ := tryRun_cases h3
        exact ⟨g1, g2, g3, g4, r4, h4, hg1, hg2, hg3, hg4⟩

theorem ifaLocalQuad?_shape {cs g : List Char} (h : ifaLocalQuad? cs = some g) :
    isQuadGroups g := by
  induction cs with
  | nil => cases h
  | cons c rest ih =>
    unfold ifaLocalQuad? at h
    rcases (Option.orElse_eq_some _ _ _).mp h with h' | ⟨-, h'⟩
    · split_ifs at h' with hs
      obtain ⟨g1, g2, g3, g4, rest', hk, hg1, hg2, hg3, hg4⟩ := quadMatch_cases h'
      split_ifs at hk with hb
      exact ⟨g1, g2, g3, g4, (Option.some.inj hk).symm, hg1, hg2, hg3, hg4⟩
    · exact ih h'

theorem inetQuadGo_shape {cs g : List Char} :
    ∀ {pw : Bool}, inetQuadGo pw cs = some g → isQuadGroups g := by
  induction cs with
  | nil => intro pw h; cases h
  | cons c rest ih =>
    intro pw h
    unfold inetQuadGo at h
    rcases (Option.orElse_eq_some _ _ _).mp h with h' | ⟨-, h'⟩
    · simp only [] at h'
      split_ifs at h' with hc hws
      obtain ⟨g1, g2, g3, g4, rest', hk, hg1, hg2, hg3, hg4⟩ := quadMatch_cases h'
      match rest', hk with
      | [], hk =>
        exact ⟨g1, g2, g3, g4, (Option.some.inj hk).symm, hg1, hg2, hg3, hg4⟩
      | a :: rest'', hk =>
        cases hwa : isWordChar a with
        | true => simp [hwa] at hk
        | false =>
          simp only [hwa, Bool.false_eq_true, if_false] at hk
          exact ⟨g1, g2, g3, g4, (Option.some.inj hk).symm, hg1, hg2, hg3, hg4⟩
    · exact ih h'

theorem ipFromIA_valid {ia : Xml} {v : String} (h : ipFromIA ia = some v) :
    __is_ipv4 v = true := by
  unfold ipFromIA at h
  simp only [] at h
  split_ifs at h with hv
  cases h
  exact hv

theorem ipFromIfaLocal_valid {c : Xml} {v : String} (h : ipFromIfaLocal c = some v) :
    __is_ipv4 v = true := by
  unfold ipFromIfaLocal at h
  simp only [] at h
  split_ifs at h with hv
  cases h
  exact hv

theorem ipFromAF_valid {af : Xml} {v : String} (h : ipFromAF af = some v) :
    __is_ipv4 v = true := by
  unfold ipFromAF at h
  simp only [] at h
  split_ifs at h with hc
  obtain ⟨ia, -, hia⟩ := List.exists_of_findSome?_eq_some h
  exact ipFromIA_valid hia

theorem ipFromLI_valid {li : Xml} {v : String} (h : ipFromLI li = some v) :
    __is_ipv4 v = true := by
  unfold ipFromLI at h
  simp only [] at h
  split_ifs at h with hc
  obtain ⟨af, -, haf⟩ := List.exists_of_findSome?_eq_some h
  exact ipFromAF_valid haf

theorem loopbackWalk_valid {doc : Xml} {v : String} (h : loopbackWalk? doc = some v) :
    __is_ipv4 v = true := by
  unfold loopbackWalk? at h
  cases h1 : (docElementsByTagName doc "logical-interface").findSome? ipFromLI with
  | some w =>
    rw [h1] at h
    cases h
    obtain ⟨li, -, hli⟩ := List.exists_of_findSome?_eq_some h1
    exact ipFromLI_valid hli
  | none =>
    rw [h1] at h
    obtain ⟨c, -, hc⟩ := List.exists_of_findSome?_eq_some h
    exact ipFromIfaLocal_valid hc

/-- The claim "any candidate with an octet outside [0,255] is never
returned" is false: with no parseable structured payload, the free-text
`inet` fallback returns `999.1.1.1`, which `__is_ipv4` itself rejects.
(`minidom` wraps the bare text in a synthetic root, which contains no
`logical-interface`/`ifa-local` elements, so the walk finds nothing.) -/
theorem claim_C2_counterexample :
    parse_loopback0_ip (some (Xml.elem "root" [Xml.text "inet 999.1.1.1"]))
        "inet 999.1.1.1" = "999.1.1.1"
      ∧ __is_ipv4 "999.1.1.1" = false := by
  constructor
  · rfl
  · decide

/-- **C2** (amended).  The structured walk only ever returns candidates
accepted by `__is_ipv4` (four dot-separated Python integers in `[0,255]`);
the free-text fallbacks enforce only the *shape* — four dot-separated
groups of one to three digits — not the octet range; and the sentinel `"-"`
is returned exactly when the walk and both fallback patterns all fail. -/
theorem claim_C2 :
    (∀ (doc : Xml) (v : String), loopbackWalk? doc = some v → __is_ipv4 v = true)
      ∧ (∀ (s : List Char) (g : List Char), ifaLocalQuad? s = some g → isQuadGroups g)
      ∧ (∀ (s : List Char) (g : List Char), inetQuadGo false s = some g → isQuadGroups g)
      ∧ (∀ (doc? : Option Xml) (s : String), doc?.bind loopbackWalk? = none →
          ifaLocalQuad? s.data = none → inetQuadGo false s.data = none →
          parse_loopback0_ip doc? s = "-")
      ∧ (∀ (doc? : Option Xml) (s : String),
          parse_loopback0_ip doc? s = "-"
            ∨ (∃ v, doc?.bind loopbackWalk? = some v ∧ parse_loopback0_ip doc? s = v
                ∧ __is_ipv4 v = true)
            ∨ (∃ g, isQuadGroups g ∧ parse_loopback0_ip doc? s = String.mk g)) := by
  refine ⟨fun doc v h => loopbackWalk_valid h,
    fun s g h => ifaLocalQuad?_shape h,
    fun s g h => inetQuadGo_shape h, ?_, ?_⟩
  · intro doc? s h1 h2 h3
    unfold parse_loopback0_ip
    rw [h1, h2, h3]
    simp
  · intro doc? s
    unfold parse_loopback0_ip
    by_cases hempty : s.data.isEmpty
    · left
      rw [if_pos hempty]
    · rw [if_neg hempty]
      cases hw : doc?.bind loopbackWalk? with
      | some v =>
        right; left
        refine ⟨v, rfl, rfl, ?_⟩
        cases doc? with
        | none => cases hw
        | some doc => exact loopbackWalk_valid hw
      | none =>
        cases hf : ifaLocalQuad? s.data with
        | some g => exact Or.inr (Or.inr ⟨g, ifaLocalQuad?_shape hf, rfl⟩)
        | none =>
          cases hi : inetQuadGo false s.data with
          | some g => exact Or.inr (Or.inr ⟨g, inetQuadGo_shape hi, rfl⟩)
          | none => exact Or.inl rfl

/-- A structured reply carrying `lo0.0` with address `10.0.0.1`. -/
def demoLoDoc : Xml :=
  Xml.elem "rpc-reply"
    [Xml.elem "interface-information"
      [Xml.elem "logical-interface"
        [Xml.elem "name" [Xml.text "lo0.0"],
         Xml.elem "address-family"
           [Xml.elem "address-family-name" [Xml.text "inet"],
            Xml.elem "interface-address"
              [Xml.elem "ifa-local" [Xml.text "10.0.0.1"]]]]]]

/-- Closed instances of `claim_C2`: the walk's `10.0.0.1` is a validated
IPv4; an `inet` fallback group has the four-part 1-3 digit shape; an input
matching nothing yields the sentinel. -/
theorem claim_C2_witness :
    __is_ipv4 "10.0.0.1" = true
      ∧ isQuadGroups "5.6.7.8".data
      ∧ parse_loopback0_ip none "no address here" = "-" :=
  ⟨claim_C2.1 demoLoDoc "10.0.0.1" (by decide),
   claim_C2.2.2.1 "inet 5.6.7.8".data "5.6.7.8".data (by decide),
   claim_C2.2.2.2.1 none "no address here" rfl (by decide) (by decide)⟩

/-! ## Reply repair (`_repair_corrupt_xml`, src/lab.py 482-506) and
`sanitize_xml_text` (466-479)

The repair stage strips ANSI escapes and control characters, appends a
synthetic `</rpc-reply>` when the opening marker is present without the
closing one, and then attempts up to three parses (as-is, wrapped in a
synthetic root, trimmed to the outermost angle brackets), returning the
best available string even when every parse fails. -/

/-- `[0-?]` of the ANSI pattern. -/
def isAnsiMid (c : Char) : Bool := 0x30 ≤ c.toNat && c.toNat ≤ 0x3F

/-- The intermediate byte class (space through slash) of the ANSI pattern. -/
def isAnsiInter (c : Char) : Bool := 0x20 ≤ c.toNat && c.toNat ≤ 0x2F

/-- `[@-~]` of the ANSI pattern. -/
def isAnsiFinal (c : Char) : Bool := 0x40 ≤ c.toNat && c.toNat ≤ 0x7E

/-- Match of the ANSI escape pattern (ESC, open bracket, parameter bytes
0x30-0x3F, intermediate bytes 0x20-0x2F, one final byte 0x40-0x7E) at the
head: the remainder after the escape sequence. -/
def ansiTail? (cs : List Char) : Option (List Char) :=
  match cs with
  | '\x1b' :: c :: rest =>
    if c == '[' then
      match (rest.dropWhile isAnsiMid).dropWhile isAnsiInter with
      | f :: tail => if isAnsiFinal f then some tail else none
      | [] => none
    else none
  | _ => none

/-- `re.sub` of the ANSI pattern with `''`. -/
def stripAnsiF : Nat → List Char → List Char
  | 0, cs => cs
  | _ + 1, [] => []
  | fuel + 1, c :: rest =>
    match ansiTail? (c :: rest) with
    | some tail => stripAnsiF fuel tail
    | none => c :: stripAnsiF fuel rest

def stripAnsi (cs : List Char) : List Char := stripAnsiF cs.length cs

/-- `[\x00-\x08\x0B\x0C\x0E-\x1F]`. -/
def isCtl (c : Char) : Bool :=
  c.toNat ≤ 8 || c.toNat == 0x0B || c.toNat == 0x0C ||
    (0x0E ≤ c.toNat && c.toNat ≤ 0x1F)

/-- `re.sub` of the control-character class with a space. -/
def stripCtl (cs : List Char) : List Char :=
  cs.map fun c => if isCtl c then ' ' else c

/-! ### A well-formedness checker modelling `minidom.parseString` acceptance

The checker accepts the subset grammar the captures at hand can exercise:
optional surrounding whitespace, one element tree with properly nested and
matching tags, quoted and non-duplicated attributes, text without a bare
`<`, `&` only as one of the five predefined entity references, and no
`]]>` in character data.  (Comments, processing instructions, doctypes,
CDATA sections and numeric character references are outside the subset:
the checker rejects them, which only narrows the hypotheses of the
theorems below — it never certifies a string expat would reject.) -/

/-- XML `S` (whitespace). -/
def isXmlWs (c : Char) : Bool := c == ' ' || c == '\t' || c == '\r' || c == '\n'

def isNameStart (c : Char) : Bool := c.isAlpha || c == '_' || c == ':'

def isNameChar (c : Char) : Bool :=
  c.isAlpha || c.isDigit || c == '_' || c == ':' || c == '-' || c == '.'

/-- The five predefined entity references, after a consumed `&`. -/
def parseEntity? (cs : List Char) : Option (List Char) :=
  if startsWithL cs "lt;".data then some (cs.drop 3)
  else if startsWithL cs "gt;".data then some (cs.drop 3)
  else if startsWithL cs "amp;".data then some (cs.drop 4)
  else if startsWithL cs "apos;".data then some (cs.drop 5)
  else if startsWithL cs "quot;".data then some (cs.drop 5)
  else none

/-- Attribute value up to the closing quote `q`. -/
def parseAttrValueF : Nat → Char → List Char → Option (List Char)
  | 0, _, _ => none
  | _ + 1, _, [] => none
  | fuel + 1, q, c :: rest =>
    if c == q then some rest
    else if c == '<' then none
    else if c == '&' then
      match parseEntity? rest with
      | some r2 => parseAttrValueF fuel q r2
      | none => none
    else parseAttrValueF fuel q rest

/-- Attribute list after the tag name; stops (successfully) at `>` or `/`;
whitespace is required before each attribute and duplicates are rejected. -/
def parseAttrsF : Nat → List (List Char) → List Char → Option (List Char)
  | 0, _, _ => none
  | fuel + 1, seen, cs =>
    let hadWs := !(cs.takeWhile isXmlWs).isEmpty
    let r := cs.dropWhile isXmlWs
    match r with
    | [] => none
    | c :: rest =>
      if c == '>' || c == '/' then some (c :: rest)
      else if hadWs && isNameStart c then
        let nm := (c :: rest).takeWhile isNameChar
        let r2 := (c :: rest).dropWhile isNameChar
        if seen.contains nm then none
        else
          match r2.dropWhile isXmlWs with
          | '=' :: r4 =>
            match r4.dropWhile isXmlWs with
            | q :: r6 =>
              if q == '"' || q == '\'' then
                match parseAttrValueF fuel q r6 with
                | some r7 => parseAttrsF fuel (nm :: seen) r7
                | none => none
              else none
            | [] => none
          | _ => none
      else none

mutual

/-- One element, starting at `<`; returns the remainder after the element. -/
def parseElemF : Nat → List Char → Option (List Char)
  | 0, _ => none
  | fuel + 1, cs =>
    match cs with
    | '<' :: r =>
      match r with
      | c0 :: _ =>
        if isNameStart c0 then
          let nm := r.takeWhile isNameChar
          let r2 := r.dropWhile isNameChar
          match parseAttrsF fuel [] r2 with
          | some ('/' :: '>' :: r3) => some r3
          | some ('>' :: r3) =>
            match parseContentF fuel r3 with
            | some r4 =>
              if startsWithL r4 nm then
                match (r4.drop nm.length).dropWhile isXmlWs with
                | '>' :: r6 => some r6
                | _ => none
              else none
            | none => none
          | _ => none
        else none
      | [] => none
    | _ => none

/-- Element content (text, entities, children) up to and including the `</`
of the enclosing close tag. -/
def parseContentF : Nat → List Char → Option (List Char)
  | 0, _ => none
  | fuel + 1, cs =>
    match cs with
    | [] => none
    | '<' :: '/' :: r => some r
    | '<' :: r =>
      match parseElemF fuel ('<' :: r) with
      | some r2 => parseContentF fuel r2
      | none => none
    | '&' :: r =>
      match parseEntity? r with
      | some r2 => parseContentF fuel r2
      | none => none
    | ']' :: ']' :: '>' :: _ => none
    | _ :: r => parseContentF fuel r

end

/-- `minidom.parseString` acceptance on the modelled subset: optional
whitespace, one element, optional whitespace, end of input. -/
def xmlWF (s : String) : Bool :=
  let cs := s.data.dropWhile isXmlWs
  match parseElemF (cs.length + 2) cs with
  | some rest => (rest.dropWhile isXmlWs).isEmpty
  | none => false

/-! ### `_repair_corrupt_xml` and `sanitize_xml_text` -/

/-- The escape/control stripping of lines 485-487. -/
def cleanedOf (x : String) : String := String.mk (stripCtl (stripAnsi x.data))

/-- Line 488-489: append a synthetic closing tag when the opening marker is
present without the closing one. -/
def withClose (x : String) : String :=
  if strContains (cleanedOf x) "<rpc-reply" && !strContains (cleanedOf x) "</rpc-reply>" then
    cleanedOf x ++ "</rpc-reply>"
  else cleanedOf x

/-- Index of the first occurrence of `pat` in `cs`. -/
def subFind? : List Char → List Char → Option Nat
  | [], pat => if pat.isEmpty then some 0 else none
  | c :: rest, pat =>
    if startsWithL (c :: rest) pat then some 0 else (subFind? rest pat).map (· + 1)

/-- Index of the last occurrence of `pat` in `cs`. -/
def subRFind? : List Char → List Char → Option Nat
  | [], pat => if pat.isEmpty then some 0 else none
  | c :: rest, pat =>
    match (subRFind? rest pat).map (· + 1) with
    | some i => some i
    | none => if startsWithL (c :: rest) pat then some 0 else none

/-- Python slice `cs[a:b]` for `0 ≤ a, b`. -/
def pySlice (cs : List Char) (a b : Nat) : List Char := (cs.drop a).take (b - a)

/-- Lines 498-505: trim to the outermost angle brackets when both exist
(the trimmed string is returned whether or not it parses), else keep. -/
def trimAngles (t : String) : String :=
  match subFind? t.data ['<'], subRFind? t.data ['>'] with
  | some s, some e => String.mk (pySlice t.data s (e + 1))
  | _, _ => t

/-- Embedding of `_repair_corrupt_xml` (src/lab.py lines 482-506), with
`xmlWF` standing for `minidom.parseString` acceptance. -/
def _repair_corrupt_xml (x : String) : String :=
  if x.data.isEmpty then ""
  else if xmlWF (withClose x) then withClose x
  else if xmlWF ("<root>" ++ withClose x ++ "</root>") then "<root>" ++ withClose x ++ "</root>"
  else trimAngles (withClose x)

/-- Suffix of `cs` from its last newline, when any. -/
def suffixFromLastNL? (cs : List Char) : Option (List Char) :=
  match cs.reverse.findIdx? (· == '\n') with
  | some i => some (cs.drop (cs.length - 1 - i))
  | none => none

/-- One attempt of the CLI-echo pattern
`(?:^\s*set\s+cli\s+screen-length.*\nshow\s+.*\nfile\s+show\s+/var/tmp/.*)\s*$`
(IGNORECASE | MULTILINE, line 470) at a line-start position; returns the
remainder after the match end.  Whitespace and dot runs are taken with
maximal munch; a final `\s*$` keeps the newline the `$` anchors to.  (The
exotic backtracking where a `\s+` run spans several newlines is not
reproduced; no theorem below depends on which lines this sub removes.) -/
def echoMatchEnd? (cs : List Char) : Option (List Char) :=
  let r0 := cs.dropWhile isPyWs
  if startsWithCaselessL r0 "set".data then
    let r1 := r0.drop 3
    if (r1.takeWhile isPyWs).isEmpty then none
    else
      let r2 := r1.dropWhile isPyWs
      if startsWithCaselessL r2 "cli".data then
        let r3 := r2.drop 3
        if (r3.takeWhile isPyWs).isEmpty then none
        else
          let r4 := r3.dropWhile isPyWs
          if startsWithCaselessL r4 "screen-length".data then
            match (r4.drop 13).dropWhile (fun c => !(c == '\n')) with
            | '\n' :: r6 =>
              if startsWithCaselessL r6 "show".data then
                let r7 := r6.drop 4
                if (r7.takeWhile isPyWs).isEmpty then none
                else
                  match (r7.dropWhile isPyWs).dropWhile (fun c => !(c == '\n')) with
                  | '\n' :: r9 =>
                    if startsWithCaselessL r9 "file".data then
                      let r10 := r9.drop 4
                      if (r10.takeWhile isPyWs).isEmpty then none
                      else
                        let r11 := r10.dropWhile isPyWs
                        if startsWithCaselessL r11 "show".data then
                          let r12 := r11.drop 4
                          if (r12.takeWhile isPyWs).isEmpty then none
                          else
                            let r13 := r12.dropWhile isPyWs
                            if startsWithL r13 "/var/tmp/".data then
                              let r14 := (r13.drop 9).dropWhile (fun c => !(c == '\n'))
                              let wsRun := r14.takeWhile isPyWs
                              let after := r14.dropWhile isPyWs
                              if after.isEmpty then some []
                              else
                                match suffixFromLastNL? wsRun with
                                | some tail => some (tail ++ after)
                                | none => none
                            else none
                        else none
                    else none
                  | _ => none
              else none
            | _ => none
          else none
      else none
  else none

/-- `re.sub` of the CLI-echo pattern with `''`: scan line starts, delete
matches. -/
def echoStripF : Nat → Bool → List Char → List Char
  | 0, _, cs => cs
  | _ + 1, _, [] => []
  | fuel + 1, atLineStart, c :: rest =>
    if atLineStart then
      match echoMatchEnd? (c :: rest) with
      | some remainder => echoStripF fuel false remainder
      | none => c :: echoStripF fuel (c == '\n') rest
    else c :: echoStripF fuel (c == '\n') rest

def echoStrip (cs : List Char) : List Char := echoStripF cs.length true cs

/-- Leftmost caseless occurrence index of `pat` in `cs`. -/
def caselessFindIdx? : List Char → List Char → Option Nat
  | [], _ => none
  | c :: rest, pat =>
    if startsWithCaselessL (c :: rest) pat then some 0
    else (caselessFindIdx? rest pat).map (· + 1)

/-- `re.search(r'<interface-information[\s\S]*?</interface-information>',
s, re.IGNORECASE)` (line 476): leftmost opening tag, shortest extension to
the closing tag; returns the matched fragment. -/
def interfaceInfoMatch? (s : List Char) : Option (List Char) :=
  match caselessFindIdx? s "<interface-information".data with
  | none => none
  | some i =>
    let fromOpen := s.drop i
    match caselessFindIdx? (fromOpen.drop 22) "</interface-information>".data with
    | none => none
    | some j => some (fromOpen.take (22 + j + 24))

/-- Embedding of `sanitize_xml_text` (src/lab.py lines 466-479). -/
def sanitize_xml_text (raw : String) : String :=
  if raw.data.isEmpty then ""
  else
    let s := echoStrip raw.data
    match subFind? s "<rpc-reply".data, subRFind? s "</rpc-reply>".data with
    | some s0, some e0 => _repair_corrupt_xml (String.mk (pySlice s s0 (e0 + 12)))
    | _, _ =>
      match interfaceInfoMatch? s with
      | some frag => _repair_corrupt_xml (String.mk frag)
      | none => _repair_corrupt_xml (String.mk s)

/-! ### Claims C5 and C6 -/

/-- The claim "for every capture missing its closing marker the repaired
text parses" is false: `"<rpc-reply><a"` contains the opening marker and no
closing marker, yet repair returns `"<rpc-reply><a</rpc-reply>"`, which no
parse stage accepts (the final fallback returns it unparsed). -/
theorem claim_C5_counterexample :
    strContains (cleanedOf "<rpc-reply><a") "<rpc-reply" = true
      ∧ strContains (cleanedOf "<rpc-reply><a") "</rpc-reply>" = false
      ∧ _repair_corrupt_xml "<rpc-reply><a" = "<rpc-reply><a</rpc-reply>"
      ∧ xmlWF "<rpc-reply><a</rpc-reply>" = false := by
  refine ⟨by decide, by decide, by decide, by decide⟩

/-- **C5** (amended).  For a capture containing the opening marker without
the closing marker, *whose cleaned text becomes well-formed once the
synthetic closing tag is appended*, the repair stage returns exactly that
well-formed text; in general (see the counterexample) repair is
best-effort and may return unparseable text. -/
theorem claim_C5 (x : String)
    (h1 : strContains (cleanedOf x) "<rpc-reply" = true)
    (h2 : strContains (cleanedOf x) "</rpc-reply>" = false)
    (h3 : xmlWF (cleanedOf x ++ "</rpc-reply>") = true) :
    _repair_corrupt_xml x = cleanedOf x ++ "</rpc-reply>"
      ∧ xmlWF (_repair_corrupt_xml x) = true := by
  have hwc : withClose x = cleanedOf x ++ "</rpc-reply>" := by
    unfold withClose
    rw [if_pos (by rw [h1, h2]; rfl)]
  have hxne : x.data.isEmpty = false := by
    cases hx : x.data with
    | nil =>
      exfalso
      have hc : cleanedOf x = "" := by
        unfold cleanedOf stripAnsi
        rw [hx]
        rfl
      rw [hc] at h1
      exact absurd h1 (by decide)
    | cons a t => rfl
  rw [← hwc] at h3
  unfold _repair_corrupt_xml
  simp only [hxne, Bool.false_eq_true, if_false, h3, if_true]
  exact ⟨hwc, trivial⟩

/-- Closed instance of `claim_C5`: a capture with a lost closing marker is
repaired to a parseable reply. -/
theorem claim_C5_witness :
    _repair_corrupt_xml "<rpc-reply><x/>" = cleanedOf "<rpc-reply><x/>" ++ "</rpc-reply>"
      ∧ xmlWF (_repair_corrupt_xml "<rpc-reply><x/>") = true :=
  claim_C5 "<rpc-reply><x/>" (by decide) (by decide) (by decide)

/-- **C6.**  The extraction/repair stage is a total function returning a
string for *every* input (never an exception): `_repair_corrupt_xml`
always returns one of the four best-effort forms (empty, cleaned text with
optional synthetic closing tag, its root-wrapped form, or its
angle-bracket trim), and `sanitize_xml_text` always returns either `""` or
the repair of some slice of its input. -/
theorem claim_C6 (s : String) :
    (_repair_corrupt_xml s = ""
       ∨ _repair_corrupt_xml s = withClose s
       ∨ _repair_corrupt_xml s = "<root>" ++ withClose s ++ "</root>"
       ∨ _repair_corrupt_xml s = trimAngles (withClose s))
      ∧ (sanitize_xml_text s = "" ∨ ∃ t, sanitize_xml_text s = _repair_corrupt_xml t) := by
  constructor
  · unfold _repair_corrupt_xml
    by_cases h0 : s.data.isEmpty = true
    · rw [if_pos h0]
      exact Or.inl rfl
    · rw [if_neg h0]
      by_cases hp1 : xmlWF (withClose s) = true
      · rw [if_pos hp1]
        exact Or.inr (Or.inl rfl)
      · rw [if_neg hp1]
        by_cases hp2 : xmlWF ("<root>" ++ withClose s ++ "</root>") = true
        · rw [if_pos hp2]
          exact Or.inr (Or.inr (Or.inl rfl))
        · rw [if_neg hp2]
          exact Or.inr (Or.inr (Or.inr rfl))
  · unfold sanitize_xml_text
    by_cases h0 : s.data.isEmpty = true
    · rw [if_pos h0]
      exact Or.inl rfl
    · rw [if_neg h0]
      cases hf : subFind? (echoStrip s.data) "<rpc-reply".data with
      | some s0 =>
        cases hr : subRFind? (echoStrip s.data) "</rpc-reply>".data with
        | some e0 =>
          simp only [hf, hr]
          exact Or.inr ⟨_, rfl⟩
        | none =>
          simp only [hf, hr]
          cases hi : interfaceInfoMatch? (echoStrip s.data) with
          | some frag => simp only [hi]; exact Or.inr ⟨_, rfl⟩
          | none => simp only [hi]; exact Or.inr ⟨_, rfl⟩
      | none =>
        simp only [hf]
        cases hi : interfaceInfoMatch? (echoStrip s.data) with
        | some frag => simp only [hi]; exact Or.inr ⟨_, rfl⟩
        | none => simp only [hi]; exact Or.inr ⟨_, rfl⟩

/-! ## Per-node collection (`_collect_for_node`, src/lab.py 1293-1451, and
the pool loop of `main`, 1542-1552)

The collector's control flow is embedded faithfully: the result dict is
fully pre-populated (lines 1295-1312); the *log-handler setup at lines
1313-1318 runs before the guarded region*, so an exception there (for
example an `OSError` from `logging.FileHandler`) propagates out of the
collector; the outer `try` catches a failing `open_tacacs_shell` (error
`open_tacacs_shell`, skipping every stage), and each stage inside is
guarded individually, appending to the error list and never aborting its
successors; `elapsed` is always set before returning.  Stage *bodies* are
abstracted into a per-node environment of outcomes (a raising stage is
modelled as leaving its fields at their prior values; in the source an
exception can also strike between a stage's assignments, which only makes
the overwritten subset smaller and cannot remove a field).  `main` submits
one task per node and collects `fut.result()` under a `try` whose `except`
merely logs — a task that raised contributes *no* entry to the collected
list. -/

structure AlarmRec where
  time : String
  type : String
  description : String
  severity : String
  status : String
deriving Repr, DecidableEq

/-- The `system_info` dict, pre-populated at lines 1301-1308 (the
`current_sw_type` / `show_version_text` keys are added during collection;
they are modelled as fields defaulting to `""`). -/
structure SysInfo where
  platform : String
  current_sw : String
  current_sw_type : String
  show_version_text : String
  loopback_address : String
  memory_util : Int
  cpu_usage : Int
  total_space : Int
  used_space : Int
  free_space : Int
  disk_util : Int
  temperature : Int
  memory_recommendation : String
  cpu_recommendation : String
  disk_recommendation : String
deriving Repr, DecidableEq

def defaultSysInfo : SysInfo :=
  { platform := "mx960", current_sw := "JUNOS", current_sw_type := "",
    show_version_text := "", loopback_address := "-",
    memory_util := 3, cpu_usage := 5,
    total_space := 54272, used_space := 6144, free_space := 48128, disk_util := 3,
    temperature := 49,
    memory_recommendation := "NORMAL - Optimal Performance",
    cpu_recommendation := "NORMAL - Optimal Performance",
    disk_recommendation := "NORMAL - Adequate Free Space" }

/-- The per-node result dict (lines 1295-1312): every field is present from
construction on. -/
structure NodeResult where
  node : String
  hardware_items : List HwItem
  interfaces_rows : List IfaceRow
  alarms : List AlarmRec
  loopback : String
  system_info : SysInfo
  fpc_model_map : List (Nat × String)
  optics_map : List (String × String)
  errors : List String
  elapsed : Nat
deriving Repr, DecidableEq

/-- `re.search(r'(?i)FPC\s*(\d+)', slot)` (line 614). -/
def fpcSlotNum? : List Char → Option Nat
  | [] => none
  | c :: rest =>
    if startsWithCaselessL (c :: rest) "FPC".data then
      let ds := (((c :: rest).drop 3).dropWhile isPyWs).takeWhile Char.isDigit
      if ds.isEmpty then fpcSlotNum? rest else some (digitsToNat ds)
    else fpcSlotNum? rest

/-- Dict insertion with overwrite. -/
def upsert (k : Nat) (v : String) : List (Nat × String) → List (Nat × String)
  | [] => [(k, v)]
  | (k', v') :: rest => if k' == k then (k, v) :: rest else (k', v') :: upsert k v rest

/-- Embedding of `build_fpc_model_map` (src/lab.py lines 609-620). -/
def build_fpc_model_map (hw : List HwItem) : List (Nat × String) :=
  hw.foldl
    (fun m it =>
      if upperStr it.component_type == "FPC" then
        match fpcSlotNum? it.slot.data with
        | some slot => upsert slot (if it.model != "" then it.model else "FPC") m
        | none => m
      else m)
    []

/-- `x or d` on an optional integer (Python falsiness: `None` and `0`). -/
def pyOrI (o : Option Int) (d : Int) : Int :=
  match o with
  | some v => if v = 0 then d else v
  | none => d

/-- Per-node environment: which steps raise, and the payloads the device
replies produce.  `storageXml?` stands for `_parse_storage_xml(stg_xml)`
(that XML path returns `None` on any failure); `rawVer` / `osType` stand
for the version-token and OS-type components of `_detect_platform_and_sw`,
whose platform component is the embedded `_detect_platform`. -/
structure CollectEnv where
  node : String
  logSetupRaises : Bool
  openShellRaises : Bool
  connectRaises : Bool
  reCpuMemRaises : Bool
  storageXmlRaises : Bool
  storageTextRaises : Bool
  storageAssignRaises : Bool
  chassisRaises : Bool
  opticsRaises : Bool
  alarmsRaises : Bool
  interfacesRaises : Bool
  showVerRaises : Bool
  platformRaises : Bool
  loopbackRaises : Bool
  fpcMapRaises : Bool
  temperature? : Option Int
  cpuUsed? : Option Int
  memUtil? : Option Int
  storageXml? : Option StorageOut
  storageText : String
  hardware : List HwItem
  opticsMap : List (String × String)
  alarms : List AlarmRec
  interfaces : List IfaceRow
  showVer : String
  rawVer : String
  osType : String
  loopbackDoc? : Option Xml
  loopbackRaw : String
  loopbackTerseDoc? : Option Xml
  loopbackTerse : String
  elapsed : Nat

/-- One guarded stage (a `try` of lines 1320-1448): a raising stage
appends its error tag; a successful one applies its update. -/
def stGuard (flag : Bool) (err : String) (upd : NodeResult → NodeResult)
    (o : NodeResult) : NodeResult :=
  if flag then { o with errors := o.errors ++ [err] } else upd o

def updReCpuMem (env : CollectEnv) (o : NodeResult) : NodeResult :=
  { o with system_info :=
      { o.system_info with
          temperature := (env.temperature?).getD o.system_info.temperature,
          cpu_usage := (env.cpuUsed?).getD o.system_info.cpu_usage,
          memory_util := (env.memUtil?).getD o.system_info.memory_util } }

/-- Lines 1358-1367: the XML-path storage result is preferred only when
all four numeric fields are present, else the text-path result; the
`x or y` falsiness of the Python assignments is kept. -/
def updStorage (env : CollectEnv) (o : NodeResult) : NodeResult :=
  let stXml : Option StorageOut := if env.storageXmlRaises then none else env.storageXml?
  let stTxt : StorageOut :=
    _parse_storage_text (if env.storageTextRaises then "" else env.storageText)
  let chosen : StorageOut :=
    match stXml with
    | some c =>
      if c.total_mb ≠ none ∧ c.used_mb ≠ none ∧ c.free_mb ≠ none ∧ c.util_percent ≠ none
      then c else stTxt
    | none => stTxt
  { o with system_info :=
      { o.system_info with
          total_space := (chosen.total_mb).getD 0,
          used_space := (chosen.used_mb).getD 0,
          free_space := (chosen.free_mb).getD 0,
          disk_util := pyOrI chosen.util_percent
            (pyRound ((pyOrI chosen.used_mb 0 : Rat)
              / (max (pyOrI chosen.total_mb 1) 1 : Rat) * 100)) } }

def updChassis (env : CollectEnv) (o : NodeResult) : NodeResult :=
  { o with hardware_items := env.hardware }

def updOptics (env : CollectEnv) (o : NodeResult) : NodeResult :=
  { o with optics_map := env.opticsMap }

def updAlarms (env : CollectEnv) (o : NodeResult) : NodeResult :=
  { o with alarms := env.alarms }

def updInterfaces (env : CollectEnv) (o : NodeResult) : NodeResult :=
  { o with interfaces_rows := env.interfaces }

def updPlatform (env : CollectEnv) (o : NodeResult) : NodeResult :=
  let showVer := if env.showVerRaises then "" else env.showVer
  { o with system_info :=
      { o.system_info with
          platform := _detect_platform env.node o.hardware_items showVer,
          current_sw := env.rawVer,
          current_sw_type := env.osType,
          show_version_text := showVer } }

def updLoopback (env : CollectEnv) (o : NodeResult) : NodeResult :=
  let v1 := parse_loopback0_ip env.loopbackDoc? env.loopbackRaw
  { o with loopback :=
      if v1 == "-" then parse_loopback0_ip env.loopbackTerseDoc? env.loopbackTerse
      else v1 }

def updFpc (_env : CollectEnv) (o : NodeResult) : NodeResult :=
  { o with fpc_model_map := build_fpc_model_map o.hardware_items }

/-- The pre-populated result dict of lines 1295-1312. -/
def initialResult (env : CollectEnv) : NodeResult :=
  { node := env.node, hardware_items := [], interfaces_rows := [], alarms := [],
    loopback := "-", system_info := defaultSysInfo, fpc_model_map := [],
    optics_map := [], errors := [], elapsed := 0 }

/-- The guarded stage sequence (lines 1320-1448), stage by stage in source
order. -/
def collectBody (env : CollectEnv) : NodeResult :=
  let o0 := initialResult env
  if env.openShellRaises then
    { o0 with errors := o0.errors ++ ["open_tacacs_shell"], elapsed := env.elapsed }
  else
    let o1 := stGuard env.connectRaises "connect_to_node" (fun o => o) o0
    let o2 := stGuard env.reCpuMemRaises "re/cpu/mem" (updReCpuMem env) o1
    let o3 := stGuard env.storageAssignRaises "storage-parse" (updStorage env) o2
    let o4 := stGuard env.chassisRaises "chassis" (updChassis env) o3
    let o5 := stGuard env.opticsRaises "optics" (updOptics env) o4
    let o6 := stGuard env.alarmsRaises "alarms" (updAlarms env) o5
    let o7 := stGuard env.interfacesRaises "interfaces" (updInterfaces env) o6
    let o8 := stGuard env.platformRaises "platform/sw detect" (updPlatform env) o7
    let o9 := stGuard env.loopbackRaises "loopback" (updLoopback env) o8
    let o10 := stGuard env.fpcMapRaises "fpc_map" (updFpc env) o9
    { o10 with elapsed := env.elapsed }

theorem stGuard_node (flag : Bool) (err : String) (upd : NodeResult → NodeResult)
    (o : NodeResult) (h : ∀ x, (upd x).node = x.node) :
    (stGuard flag err upd o).node = o.node := by
  unfold stGuard
  split
  · rfl
  · exact h o

/-- The node identifier is never overwritten by any stage. -/
theorem collectBody_node (env : CollectEnv) : (collectBody env).node = env.node := by
  unfold collectBody
  by_cases hop : env.openShellRaises = true
  · simp only [hop, if_true]
    rfl
  · simp only [hop, Bool.false_eq_true, if_false]
    show (stGuard _ _ _ _).node = _
    rw [stGuard_node _ _ (updFpc env) _ fun x => rfl,
      stGuard_node _ _ (updLoopback env) _ fun x => rfl,
      stGuard_node _ _ (updPlatform env) _ fun x => rfl,
      stGuard_node _ _ (updInterfaces env) _ fun x => rfl,
      stGuard_node _ _ (updAlarms env) _ fun x => rfl,
      stGuard_node _ _ (updOptics env) _ fun x => rfl,
      stGuard_node _ _ (updChassis env) _ fun x => rfl,
      stGuard_node _ _ (updStorage env) _ fun x => rfl,
      stGuard_node _ _ (updReCpuMem env) _ fun x => rfl,
      stGuard_node _ _ (fun o => o) _ fun x => rfl]
    rfl

/-- Embedding of `_collect_for_node`: the log-handler setup of lines
1313-1318 runs *before* the guarded region, so its exception escapes the
collector. -/
def _collect_for_node (env : CollectEnv) : Except Unit NodeResult :=
  if env.logSetupRaises then Except.error ()
  else Except.ok (collectBody env)

/-- The pool loop of `main` (lines 1542-1552): every node is submitted, and
`fut.result()` is read under a `try` whose handler only logs, so a raising
task contributes no result.  (Completion order is modelled as submission
order; the claim counts per-node results, which is order-independent.) -/
def mainCollect (envs : List CollectEnv) : List NodeResult :=
  (envs.map _collect_for_node).filterMap fun r =>
    match r with
    | Except.ok v => some v
    | Except.error _ => none

/-- The claim "exactly one result is produced and collected for every
submitted node, whatever raises inside the collector" is false: when the
pre-guard log-handler setup raises, `main` drops the node — one node
submitted, zero results collected. -/
def demoEnvBad : CollectEnv :=
  { node := "n1", logSetupRaises := true, openShellRaises := false,
    connectRaises := false, reCpuMemRaises := false, storageXmlRaises := false,
    storageTextRaises := false, storageAssignRaises := false, chassisRaises := false,
    opticsRaises := false, alarmsRaises := false, interfacesRaises := false,
    showVerRaises := false, platformRaises := false, loopbackRaises := false,
    fpcMapRaises := false, temperature? := none, cpuUsed? := none, memUtil? := none,
    storageXml? := none, storageText := "", hardware := [], opticsMap := [],
    alarms := [], interfaces := [], showVer := "", rawVer := "", osType := "",
    loopbackDoc? := none, loopbackRaw := "", loopbackTerseDoc? := none,
    loopbackTerse := "", elapsed := 7 }

theorem claim_C4_counterexample :
    (mainCollect [demoEnvBad]).length = 0 ∧ [demoEnvBad].length = 1 :=
  ⟨rfl, rfl⟩

/-- **C4** (amended).  Provided the pre-guard log-handler setup does not
raise, every submitted node yields exactly one collected result — the
fully-constructed `collectBody` record, whose every field is present by
construction whatever combination of stages fails (session-open failure
included) — and the collected list is in bijection with the submitted
nodes.  An exception in the log-handler setup (lines 1313-1318), which
runs before the guarded region, escapes the collector and `main` then
drops that node's result. -/
theorem claim_C4 (envs : List CollectEnv)
    (h : ∀ e ∈ envs, e.logSetupRaises = false) :
    mainCollect envs = envs.map collectBody
      ∧ (mainCollect envs).map NodeResult.node = envs.map CollectEnv.node := by
  have hmain : mainCollect envs = envs.map collectBody := by
    induction envs with
    | nil => rfl
    | cons e rest ih =>
      have he : e.logSetupRaises = false := h e (List.mem_cons_self e rest)
      have hrest := ih fun x hx => h x (List.mem_cons_of_mem e hx)
      unfold mainCollect at hrest ⊢
      simp only [List.map_cons, List.filterMap_cons]
      rw [show _collect_for_node e = Except.ok (collectBody e) from by
        unfold _collect_for_node
        rw [he]
        rfl]
      rw [hrest]
  refine ⟨hmain, ?_⟩
  rw [hmain]
  have hnodes : ∀ l : List CollectEnv,
      (l.map collectBody).map NodeResult.node = l.map CollectEnv.node := by
    intro l
    induction l with
    | nil => rfl
    | cons e rest ih => simp only [List.map_cons, ih, collectBody_node]
  exact hnodes envs

/-- Closed instance of `claim_C4`: a node on which *every* stage fails
still contributes exactly one complete result. -/
def demoEnvAllFail : CollectEnv :=
  { demoEnvBad with
    node := "lab-node", logSetupRaises := false,
    openShellRaises := false, connectRaises := true, reCpuMemRaises := true,
    storageXmlRaises := true, storageTextRaises := true, storageAssignRaises := true,
    chassisRaises := true, opticsRaises := true, alarmsRaises := true,
    interfacesRaises := true, showVerRaises := true, platformRaises := true,
    loopbackRaises := true, fpcMapRaises := true }

theorem claim_C4_witness :
    mainCollect [demoEnvAllFail] = [demoEnvAllFail].map collectBody
      ∧ (mainCollect [demoEnvAllFail]).map NodeResult.node
          = [demoEnvAllFail].map CollectEnv.node :=
  claim_C4 [demoEnvAllFail] fun e he => by
    rcases List.mem_singleton.mp he with rfl
    rfl

end FpcLab
